import Mathlib

/-!
Shallow embedding of the fun-asr media-processing orchestrator
(TypeScript sources: `src/engine/demucs.ts`, `src/engine/pythonAsr.ts`,
`src/queue/serialQueue.ts`, and the v2 server module holding the job/batch
engines, artifact store and HTTP glue), together with theorems settling the
frozen claims about the job lifecycle and scheduling subsystem.
-/

namespace FunAsr

/-- A JSON-ish value as it appears in request bodies and wire lines.
Numbers are modelled as rationals (JS numbers used by the code are finite
decimals); `jnull` stands for JSON null. -/
inductive JVal
  | jstr (s : String)
  | jnum (q : ℚ)
  | jbool (b : Bool)
  | jnull
  deriving DecidableEq, Repr

/-- Error codes recorded on job / batch-item error records
(type `V2JobError["code"]` in the server module). -/
inductive ErrCode
  | bad_request
  | bad_audio
  | engine_error
  | internal_error
  deriving DecidableEq, Repr

/-! ## ASR worker wire protocol (C1)

`PythonAsrWorker.requestAsr` (engine/demucs.ts snapshot, lines 126-140) builds
the stdin line as
`JSON.stringify({ type: "asr", id, audioPath: args.audioPath, outDir: args.outDir })`.
At runtime the caller's argument object may carry additional fields
(`runAsrViaPython` passes `vadMaxSingleSegmentMs` / `vadMaxEndSilenceMs`), but
the serialized object enumerates its keys explicitly, so only the four listed
keys ever reach the wire. -/

/-- Argument object handed to `worker.requestAsr` by `runAsrViaPython`
(pythonAsr.ts lines 45-50 and 56-61): the caller includes the VAD tuning
fields of the job. -/
structure AsrArgs where
  audioPath : String
  outDir : String
  vadMaxSingleSegmentMs : Option Nat := none
  vadMaxEndSilenceMs : Option Nat := none
  deriving DecidableEq, Repr

namespace PythonAsrWorker

/-- The JSON object written to the worker's stdin for one recognize request,
as a key/value list in serialization order (demucs.ts line 132). The
constructed object picks `args.audioPath` and `args.outDir` and nothing else
from the argument object. -/
def requestAsrLine (id : Nat) (args : AsrArgs) : List (String × JVal) :=
  [ ("type", JVal.jstr "asr")
  , ("id", JVal.jnum id)
  , ("audioPath", JVal.jstr args.audioPath)
  , ("outDir", JVal.jstr args.outDir) ]

end PythonAsrWorker

/-! ## Serial engine queue (C4)

The v2 server constructs `new SerialQueue()` (no capacity argument); the
matching `SerialQueue` version wraps a `PQueue` with `concurrency: 1` and its
`add` simply forwards to `queue.add(task)` — there is no size check and no
rejection path. `pending` is the waiting count, `running` is 1 while a task
is in flight. -/

/-- A task handed to the queue, identified by a number (the result the
caller's handle resolves with). -/
structure QTask where
  tid : Nat
  deriving DecidableEq, Repr

/-- The serial queue's observable state: FIFO tail plus at most one
in-flight task. -/
structure SerialQueue where
  waiting : List QTask
  inflight : Option QTask
  deriving DecidableEq, Repr

namespace SerialQueue

def empty : SerialQueue := { waiting := [], inflight := none }

/-- `get pending()` — number of waiting tasks. -/
def pending (q : SerialQueue) : Nat := q.waiting.length

/-- `get running()` — 1 while a task is in progress, else 0. -/
def running (q : SerialQueue) : Nat := if q.inflight.isSome then 1 else 0

/-- `add(task)` of the current `SerialQueue`: unconditionally enqueue and
hand back an accepted handle. The returned `Bool` is `true` iff the
submission was accepted (the source has no rejection branch). -/
def add (q : SerialQueue) (t : QTask) : SerialQueue × Bool :=
  ({ q with waiting := q.waiting ++ [t] }, true)

/-- Submit a whole list of tasks in order, collecting the acceptance flag of
each submission. -/
def submitAll (q : SerialQueue) : List QTask → SerialQueue × List Bool
  | [] => (q, [])
  | t :: ts =>
    let (q2, ok) := q.add t
    let (q3, oks) := q2.submitAll ts
    (q3, ok :: oks)

/-- Run the queue to quiescence: the single slot repeatedly takes the head
of the FIFO tail; the returned list is the completion order, i.e. the order
in which the callers' handles resolve. -/
def drain (q : SerialQueue) : List QTask :=
  (match q.inflight with
   | some t => [t]
   | none => []) ++ q.waiting

end SerialQueue

/-! ## One-shot respawn-and-retry (C5)

`runAsrViaPython` (pythonAsr.ts lines 44-62): the first `requestAsr` attempt
is wrapped in a try/catch; on any error the module replaces the worker with a
freshly constructed one (`worker = makeWorker()`) and retries the same
request exactly once, outside any further catch — a second failure
propagates to the caller. -/

/-- Outcome of one `worker.requestAsr` call: either the srt path from a
`result ok:true` line, or the rejection error (worker death rejects every
pending request; a `result ok:false` line rejects that request). -/
inductive AttemptOutcome
  | succ (srtPath : String)
  | err (message : String)
  deriving DecidableEq, Repr

/-- The two attempt outcomes a single `runAsrViaPython` call can observe:
the original request and, if that failed, the request against the respawned
worker. -/
structure AsrAttempts where
  firstTry : AttemptOutcome
  retryTry : AttemptOutcome
  deriving DecidableEq, Repr

/-- Result of `runAsrViaPython`: the surfaced result plus how many
`requestAsr` calls and how many post-init `makeWorker` respawns happened. -/
structure AsrRunResult where
  result : Except String String
  attempts : Nat
  respawns : Nat
  deriving Repr

/-- `runAsrViaPython` control flow over the attempt outcomes. -/
def runAsrViaPython (oc : AsrAttempts) : AsrRunResult :=
  match oc.firstTry with
  | AttemptOutcome.succ s => { result := Except.ok s, attempts := 1, respawns := 0 }
  | AttemptOutcome.err _ =>
    match oc.retryTry with
    | AttemptOutcome.succ s => { result := Except.ok s, attempts := 2, respawns := 1 }
    | AttemptOutcome.err e2 => { result := Except.error e2, attempts := 2, respawns := 1 }

/-! ## Batch option parsing (C10)

`parseBatchOptions` (server module): the policy is compared against the
literal `"stage-first"` with strict equality and silently replaced by the
default on mismatch; VAD values go through JS `Number(...)` and are kept only
when finite and strictly positive — everything else is dropped without an
error. The function has no failure path at all. -/

/-- Decimal digit run to a natural number; `none` when empty or a non-digit
appears. -/
def digitsToNat (cs : List Char) : Option Nat :=
  if cs = [] then none
  else if cs.all Char.isDigit then
    some (cs.foldl (fun n c => 10 * n + (c.toNat - 48)) 0)
  else none

/-- Whitespace trim on a character list (JS `Number` trims its input). -/
def trimChars (cs : List Char) : List Char :=
  (((cs.dropWhile Char.isWhitespace).reverse.dropWhile Char.isWhitespace).reverse)

/-- Modelled from the spec of JS `Number(string)` (an external builtin): the
trimmed empty string is 0; an optional sign followed by digits, optionally
with a decimal fraction, parses to that decimal; anything else is NaN
(`none`). Hex/exponent forms are out of scope for the inputs at issue. -/
def strToNumber (s : String) : Option ℚ :=
  let t := trimChars s.data
  if t = [] then some 0
  else
    let (sgn, body) : ℤ × List Char :=
      match t with
      | '-' :: cs => (-1, cs)
      | '+' :: cs => (1, cs)
      | cs => (1, cs)
    match body.splitOn '.' with
    | [intPart] =>
      (digitsToNat intPart).map (fun n => (sgn * n : ℤ))
    | [intPart, fracPart] =>
      match digitsToNat intPart, digitsToNat fracPart with
      | some n, some f =>
        some ((sgn : ℚ) * ((n : ℚ) + (f : ℚ) / ((10 : ℚ) ^ fracPart.length)))
      | _, _ => none
    | _ => none

/-- JS `Number(v)` on a JSON value; `none` models NaN. -/
def jToNumber : JVal → Option ℚ
  | JVal.jnum q => some q
  | JVal.jbool b => some (if b then 1 else 0)
  | JVal.jnull => some 0
  | JVal.jstr s => strToNumber s

/-- JS `Boolean(v)` truthiness on a JSON value. -/
def jTruthy : JVal → Bool
  | JVal.jnum q => q ≠ 0
  | JVal.jbool b => b
  | JVal.jnull => false
  | JVal.jstr s => s ≠ ""

/-- The raw `options` object of a batch-creation request; `none` fields model
`undefined`. -/
structure RawBatchOptions where
  policy : Option JVal := none
  tasksAsr : Option JVal := none
  tasksDemucs : Option JVal := none
  vadMaxSingleSegmentMs : Option JVal := none
  vadMaxEndSilenceMs : Option JVal := none
  deriving DecidableEq, Repr

structure V2BatchTaskFlags where
  asr : Bool
  demucs : Bool
  deriving DecidableEq, Repr

/-- Parsed batch options. The policy is kept as the string the code stores;
VAD fields are the (positive, finite) numbers that survived parsing. -/
structure V2BatchOptions where
  policy : String
  tasks : V2BatchTaskFlags
  vadMaxSingleSegmentMs : Option ℚ := none
  vadMaxEndSilenceMs : Option ℚ := none
  deriving DecidableEq, Repr

def defaultBatchOptions : V2BatchOptions :=
  { policy := "stage-first", tasks := { asr := true, demucs := true } }

/-- `parseBatchOptions(raw)`: total, never throws. -/
def parseBatchOptions (raw : Option RawBatchOptions) : V2BatchOptions :=
  match raw with
  | none => defaultBatchOptions
  | some o =>
    let policy :=
      if o.policy = some (JVal.jstr "stage-first") then "stage-first"
      else defaultBatchOptions.policy
    let tasks : V2BatchTaskFlags :=
      { asr := match o.tasksAsr with
          | some v => jTruthy v
          | none => defaultBatchOptions.tasks.asr
      , demucs := match o.tasksDemucs with
          | some v => jTruthy v
          | none => defaultBatchOptions.tasks.demucs }
    let vad1 : Option ℚ :=
      match o.vadMaxSingleSegmentMs with
      | none => none
      | some v =>
        match jToNumber v with
        | some q => if 0 < q then some q else none
        | none => none
    let vad2 : Option ℚ :=
      match o.vadMaxEndSilenceMs with
      | none => none
      | some v =>
        match jToNumber v with
        | some q => if 0 < q then some q else none
        | none => none
    { policy := policy, tasks := tasks,
      vadMaxSingleSegmentMs := vad1, vadMaxEndSilenceMs := vad2 }

/-! ## Separator adapter (C2)

`runDemucs` (engine/demucs.ts lines 49-88): spawns the separator, rejects on
non-zero exit with an `Error` carrying `code = "DEMUCS_FAILED"` and a message
built from the exit code, the signal, and the accumulated (truncated) stderr;
on exit 0 it walks the output tree and locates `vocals.mp3` / `no_vocals.mp3`
by filename suffix, failing with a plain `Error` (no `code` property) when
either is missing. -/

/-- Observable outcome of one separator subprocess run: the `close` event's
exit code (`none` models JS null, i.e. killed by signal), the signal name,
the stderr text accumulated by the data handler (truncation already
applied), and the files found under the output tree afterwards. -/
structure SepRun where
  exitCode : Option Int
  signalName : Option String
  stderrAcc : String
  filesUnderOutDir : List String
  deriving DecidableEq, Repr

/-- A thrown JS `Error` as the adapters produce it: message plus the optional
`code` property. -/
structure JsError where
  message : String
  code : Option String := none
  deriving DecidableEq, Repr

/-- `endsWithStem` inside `findDemucsOutputs`: case-insensitive suffix match
after a path separator (forward or backward slash). -/
def endsWithStem (filePath stem : String) : Bool :=
  let p := filePath.data.map Char.toLower
  (("/" ++ stem).data.isSuffixOf p) || (("\x5c" ++ stem).data.isSuffixOf p)

/-- The rejection message for a non-zero exit (demucs.ts lines 80-81). -/
def demucsFailMessage (r : SepRun) : String :=
  let msg :=
    "demucs failed code=" ++
      (match r.exitCode with
       | some c => toString c
       | none => "null") ++
    " signal=" ++
      (match r.signalName with
       | some s => s
       | none => "null")
  if r.stderrAcc.trim ≠ "" then msg ++ ": " ++ r.stderrAcc.trim else msg

/-- `runDemucs`: non-zero exit rejects with `DEMUCS_FAILED`; exit 0 resolves
and `findDemucsOutputs` then searches the tree, throwing a code-less error
when a stem is missing. Success returns the two stem paths. -/
def runDemucs (outDir : String) (r : SepRun) : Except JsError (String × String) :=
  if r.exitCode = some 0 then
    match r.filesUnderOutDir.find? (fun f => endsWithStem f "vocals.mp3"),
          r.filesUnderOutDir.find? (fun f => endsWithStem f "no_vocals.mp3") with
    | some v, some nv => Except.ok (v, nv)
    | _, _ => Except.error { message := "Demucs outputs not found under " ++ outDir }
  else
    Except.error { message := demucsFailMessage r, code := some "DEMUCS_FAILED" }

/-- A recorded job/batch-item error (`V2JobError`); `details` keeps the
string payload the engines attach. -/
structure V2JobError where
  code : ErrCode
  message : String
  details : Option String := none
  deriving DecidableEq, Repr

/-- The batch engine's per-item catch around `runDemucs` (server module,
stage-2 loop): any error from the separator adapter is recorded as
`bad_audio` with the error message as details. -/
def batchItemSepError (e : JsError) : V2JobError :=
  { code := ErrCode.bad_audio
  , message := "Demucs failed to process input audio"
  , details := some e.message }

/-- `finalizeFailure`'s code mapping (server module): the thrown error's
`code` property is kept only when it is one of the four recorded codes,
otherwise the job error becomes `internal_error`. -/
def finalizeFailureCode (c : Option String) : ErrCode :=
  if c = some "bad_request" then ErrCode.bad_request
  else if c = some "bad_audio" then ErrCode.bad_audio
  else if c = some "engine_error" then ErrCode.engine_error
  else if c = some "internal_error" then ErrCode.internal_error
  else ErrCode.internal_error

/-! ## Artifact store: load and reconcile (C6, C9)

`tryLoadV2Job` (server module, lines 392-428): read and parse `job.json`,
reject records without a string `id`/`outDir`, rewrite `outDir` to the actual
directory, then for each artifact that has a non-empty `name` and `path`,
resolve the path against `outDir`, stat it, and set `ready`/`bytes` from the
result. The function performs reads and stats only — it never writes. -/

/-- One persisted artifact record. -/
structure V2ArtifactRec where
  name : String
  path : String
  ready : Bool
  bytes : Option Nat := none
  deriving DecidableEq, Repr

/-- The persisted job metadata as far as loading is concerned. -/
structure V2JobRec where
  id : String
  outDir : String
  artifacts : List (String × V2ArtifactRec)
  deriving DecidableEq, Repr

/-- The filesystem as the loader sees it: `meta p` is the parse result of
reading path `p` (`none` = unreadable, `some none` = malformed JSON);
`stat p` is `some size` exactly when a regular file exists at `p`. -/
structure FS where
  meta : String → Option (Option V2JobRec)
  stat : String → Option Nat

/-- `path.isAbsolute` for the POSIX flavour the job directories use. -/
def isAbsolutePath (p : String) : Bool :=
  match p.data with
  | '/' :: _ => true
  | _ => false

/-- `path.join(dir, p)` (no normalization is needed for the paths the engine
produces). -/
def pathJoin (d p : String) : String := d ++ "/" ++ p

/-- A filesystem computation: explicit state passing (async fs calls in the
source become sequenced effects here). -/
abbrev FsM (α : Type) := FS → α × FS

/-- `fs.promises.stat` + `isFile` as used through `safeStatBytes`. -/
def statBytes (p : String) : FsM (Option Nat) :=
  fun fs => (fs.stat p, fs)

/-- `readFile` + `JSON.parse` of a metadata file. -/
def readMeta (p : String) : FsM (Option (Option V2JobRec)) :=
  fun fs => (fs.meta p, fs)

/-- `writeJsonAtomic`: replace the parse result at the target path. Only the
persist helpers use it; the loader does not. -/
def writeMeta (p : String) (j : V2JobRec) : FsM Unit :=
  fun fs => ((), { fs with meta := fun q => if q = p then some (some j) else fs.meta q })

/-- The per-artifact reconciliation step of `tryLoadV2Job` (lines 413-425):
entries with a falsy `name` or `path` are skipped unchanged; otherwise the
path is resolved, the file is statted, and `ready`/`bytes` are rewritten. -/
def reconcileArtifact (outDir : String) (a : V2ArtifactRec) : FsM V2ArtifactRec :=
  fun fs =>
    if a.name = "" ∨ a.path = "" then (a, fs)
    else
      let full := if isAbsolutePath a.path then a.path else pathJoin outDir a.path
      let (bytes, fs1) := statBytes full fs
      match bytes with
      | none => ({ a with path := full, ready := false, bytes := none }, fs1)
      | some n => ({ a with path := full, ready := true, bytes := some n }, fs1)

/-- The reconciliation loop over the artifact map (iteration order of
`Object.values`). -/
def reconcileArtifacts (outDir : String) :
    List (String × V2ArtifactRec) → FsM (List (String × V2ArtifactRec))
  | [] => fun fs => ([], fs)
  | ka :: rest => fun fs =>
    let (a2, fs1) := reconcileArtifact outDir ka.2 fs
    let (rs, fs2) := reconcileArtifacts outDir rest fs1
    ((ka.1, a2) :: rs, fs2)

/-- `tryLoadV2Job(dirPath)`. -/
def tryLoadV2Job (dirPath : String) : FsM (Option V2JobRec) :=
  fun fs =>
    match readMeta (pathJoin dirPath "job.json") fs with
    | (none, fs1) => (none, fs1)
    | (some none, fs1) => (none, fs1)
    | (some (some j0), fs1) =>
      if j0.id = "" then (none, fs1)
      else if j0.outDir = "" then (none, fs1)
      else
        let (arts, fs2) := reconcileArtifacts dirPath j0.artifacts fs1
        (some { j0 with outDir := dirPath, artifacts := arts }, fs2)

/-- Pure denotation of the per-artifact reconciliation (the stat neither
fails nor mutates anything). -/
def reconcileArtifactPure (fs : FS) (outDir : String) (a : V2ArtifactRec) : V2ArtifactRec :=
  if a.name = "" ∨ a.path = "" then a
  else
    let full := if isAbsolutePath a.path then a.path else pathJoin outDir a.path
    match fs.stat full with
    | none => { a with path := full, ready := false, bytes := none }
    | some n => { a with path := full, ready := true, bytes := some n }

/-- Pure denotation of the whole load. -/
def tryLoadV2JobPure (fs : FS) (dirPath : String) : Option V2JobRec :=
  match fs.meta (pathJoin dirPath "job.json") with
  | none => none
  | some none => none
  | some (some j0) =>
    if j0.id = "" then none
    else if j0.outDir = "" then none
    else some { j0 with
                outDir := dirPath,
                artifacts := j0.artifacts.map (fun ka => (ka.1, reconcileArtifactPure fs dirPath ka.2)) }

/-! ## Job and batch engines (C3, C7, C8)

The engines are sequential loops (`runV2Job`, `runV2Batch` in the server
module). We embed them as functions from an environment of engine outcomes
(transcode / recognize / separator / packer results and the cooperative
cancel flag) to the final record plus an event trace. The cancel flag is
only ever set, never cleared, so the value observed at the k-th check is
modelled by a threshold `cancelFrom`. -/

inductive IState
  | queued
  | running
  | succeeded
  | failed
  | canceled
  deriving DecidableEq, Repr

inductive IPhase
  | queuedPh
  | validatePh
  | asrConvert
  | asrPh
  | demucsPh
  | zipDemucs
  | zipResult
  | donePh
  | errorPh
  deriving DecidableEq, Repr

inductive BState
  | queued
  | running
  | succeeded
  | failed
  | canceled
  deriving DecidableEq, Repr

inductive BPhase
  | validatePh
  | asrPh
  | demucsPh
  | donePh
  | errorPh
  deriving DecidableEq, Repr

/-- A batch item as the engine mutates it. `started`/`finished` model the
presence of `startedAt`/`finishedAt`; the `...Ready` flags model
`artifacts[key].ready` for the item's artifact keys. -/
structure BItem where
  idx : Nat
  ownedInput : Bool
  state : IState
  phase : IPhase
  started : Bool
  finished : Bool
  srtReady : Bool := false
  stemsReady : Bool := false
  demucsZipReady : Bool := false
  resultZipReady : Bool := false
  errorCode : Option ErrCode := none
  deriving DecidableEq, Repr

/-- Trace events of a batch run: an item entering a phase, the removal of an
item's owned input, entry into stage 2 (the `phase="demucs"` persist), and
the terminal `markBatchDone`. -/
inductive BEv
  | enterPhase (idx : Nat) (ph : IPhase)
  | delOwned (idx : Nat)
  | stage2Entry
  | batchFinal (s : BState)
  deriving DecidableEq, Repr

/-- Outcome of one item's stage-1 work: transcode failure, recognizer
failure (`isEngineCode` = the thrown error carried `PY_ASR_FAILED`), or a
published SRT. -/
inductive S1Res
  | convertFail
  | asrFail (isEngineCode : Bool)
  | srtOk
  deriving DecidableEq, Repr

/-- Outcome of one item's stage-2 work: the separator subprocess run (fed to
`runDemucs`) and whether the two packer invocations succeed. -/
structure S2Res where
  sep : SepRun
  zipDemucsOk : Bool := true
  zipResultOk : Bool := true
  deriving DecidableEq, Repr

/-- Engine-outcome environment for one batch run. -/
structure BatchEnv where
  s1 : Nat → S1Res
  s2 : Nat → S2Res
  cancelFrom : Option Nat

/-- The value `batch.cancelRequested` reads at the k-th cancellation check
(checks are counted across both stage loops). -/
def cancelAt (env : BatchEnv) (k : Nat) : Bool :=
  match env.cancelFrom with
  | none => false
  | some c => c ≤ k

/-- `cancelRemaining`: still-queued items become `canceled`/`error` with
`finishedAt` set; others are left alone. -/
def cancelItem (it : BItem) : BItem :=
  if it.state = IState.queued then
    { it with state := IState.canceled, phase := IPhase.errorPh, finished := true }
  else it

/-- Stage-1 body for one queued item (server module, stage-1 loop):
run → `asr_convert` → transcode → `asr` → recognize → publish SRT; on
failure the item fails and the loop continues; on success the item either
finishes now (`tasks.demucs` false, releasing an owned input) or goes back
to `queued` for stage 2. -/
def stage1Process (env : BatchEnv) (tasksDemucs : Bool) (it : BItem) : BItem × List BEv :=
  let it1 := { it with state := IState.running, started := true, phase := IPhase.asrConvert }
  match env.s1 it.idx with
  | S1Res.convertFail =>
    ({ it1 with
        state := IState.failed, phase := IPhase.errorPh, finished := true,
        errorCode := some ErrCode.bad_audio },
     [BEv.enterPhase it.idx IPhase.asrConvert])
  | S1Res.asrFail isEngineCode =>
    ({ it1 with
        state := IState.failed, phase := IPhase.errorPh, finished := true,
        errorCode := some (if isEngineCode then ErrCode.engine_error else ErrCode.internal_error) },
     [BEv.enterPhase it.idx IPhase.asrConvert, BEv.enterPhase it.idx IPhase.asrPh])
  | S1Res.srtOk =>
    let it2 := { it1 with srtReady := true }
    if tasksDemucs then
      ({ it2 with state := IState.queued, phase := IPhase.queuedPh },
       [BEv.enterPhase it.idx IPhase.asrConvert, BEv.enterPhase it.idx IPhase.asrPh])
    else
      ({ it2 with state := IState.succeeded, phase := IPhase.donePh, finished := true },
       [BEv.enterPhase it.idx IPhase.asrConvert, BEv.enterPhase it.idx IPhase.asrPh]
         ++ (if it.ownedInput then [BEv.delOwned it.idx] else []))

/-- The stage-1 loop: per index, first read the cancel flag (terminating the
batch as canceled when set), then skip non-queued items, else process.
Returns the items, the trace, and whether the batch was canceled here. -/
def stage1Loop (env : BatchEnv) (tasksDemucs : Bool) :
    List BItem → Nat → List BItem × List BEv × Bool
  | [], _ => ([], [], false)
  | it :: rest, k =>
    if cancelAt env k then
      ((it :: rest).map cancelItem, [BEv.batchFinal BState.canceled], true)
    else if it.state = IState.queued then
      let (it2, evs1) := stage1Process env tasksDemucs it
      let (rs, evs, c) := stage1Loop env tasksDemucs rest (k + 1)
      (it2 :: rs, evs1 ++ evs, c)
    else
      let (rs, evs, c) := stage1Loop env tasksDemucs rest (k + 1)
      (it :: rs, evs, c)

/-- Stage-2 body for one queued item: run → `demucs` → separate (per-item
catch records `bad_audio`); publish stems → `zip_demucs` → pack;
optionally `zip_result` → pack; release owned input; succeed. A packer
failure is not caught per item — it aborts the whole batch run (third
component `true`). -/
def stage2Process (env : BatchEnv) (tasksAsr : Bool) (outDir : String) (it : BItem) :
    BItem × List BEv × Bool :=
  let it1 := { it with state := IState.running, phase := IPhase.demucsPh, started := true }
  let evs0 := [BEv.enterPhase it.idx IPhase.demucsPh]
  let demucsDir := pathJoin (pathJoin (pathJoin outDir "items") (toString it.idx)) "demucs"
  match runDemucs demucsDir (env.s2 it.idx).sep with
  | Except.error _ =>
    ({ it1 with
        state := IState.failed, phase := IPhase.errorPh, finished := true,
        errorCode := some ErrCode.bad_audio }, evs0, false)
  | Except.ok _ =>
    let it2 := { it1 with stemsReady := true, phase := IPhase.zipDemucs }
    let evs1 := evs0 ++ [BEv.enterPhase it.idx IPhase.zipDemucs]
    if (env.s2 it.idx).zipDemucsOk then
      let it3 := { it2 with demucsZipReady := true }
      if tasksAsr ∧ it3.srtReady then
        let it4 := { it3 with phase := IPhase.zipResult }
        let evs2 := evs1 ++ [BEv.enterPhase it.idx IPhase.zipResult]
        if (env.s2 it.idx).zipResultOk then
          let it5 := { it4 with resultZipReady := true }
          ({ it5 with state := IState.succeeded, phase := IPhase.donePh, finished := true },
           evs2 ++ (if it.ownedInput then [BEv.delOwned it.idx] else []), false)
        else (it4, evs2, true)
      else
        ({ it3 with state := IState.succeeded, phase := IPhase.donePh, finished := true },
         evs1 ++ (if it.ownedInput then [BEv.delOwned it.idx] else []), false)
    else (it2, evs1, true)

/-- The stage-2 loop (same cancel check; only still-queued items are
processed). Returns items, trace, canceled-early flag, aborted flag. -/
def stage2Loop (env : BatchEnv) (tasksAsr : Bool) (outDir : String) :
    List BItem → Nat → List BItem × List BEv × Bool × Bool
  | [], _ => ([], [], false, false)
  | it :: rest, k =>
    if cancelAt env k then
      ((it :: rest).map cancelItem, [BEv.batchFinal BState.canceled], true, false)
    else if it.state = IState.queued then
      let (it2, evs1, ab) := stage2Process env tasksAsr outDir it
      if ab then (it2 :: rest, evs1, false, true)
      else
        let (rs, evs, c, a) := stage2Loop env tasksAsr outDir rest (k + 1)
        (it2 :: rs, evs1 ++ evs, c, a)
    else
      let (rs, evs, c, a) := stage2Loop env tasksAsr outDir rest (k + 1)
      (it :: rs, evs, c, a)

/-- A batch record as the engine mutates it (`startedAt`/`finishedAt`/
`expiresAt` presence as Booleans). -/
structure BBatch where
  state : BState
  phase : BPhase
  started : Bool
  finished : Bool
  expires : Bool
  tasksAsr : Bool
  tasksDemucs : Bool
  outDir : String
  items : List BItem
  deriving DecidableEq, Repr

/-- `markBatchDone(state, phase)`: terminal state plus both timestamps. -/
def markBatchDone (b : BBatch) (st : BState) (ph : BPhase) : BBatch :=
  { b with state := st, phase := ph, finished := true, expires := true }

/-- The terminal classification at the end of `runV2Batch`: canceled if any
item canceled and none failed; failed if any failed; else succeeded. -/
def classifyBatch (its : List BItem) : BState :=
  let hasFailed := its.any (fun it => it.state == IState.failed)
  let hasCanceled := its.any (fun it => it.state == IState.canceled)
  if hasCanceled && !hasFailed then BState.canceled
  else if hasFailed then BState.failed
  else BState.succeeded

/-- `runV2Batch`: entry transition, stage 1 (if `tasks.asr`), stage 2 (if
`tasks.demucs`), then the terminal classification
(canceled if any canceled and none failed; failed if any failed; else
succeeded). A packer abort reaches the outer catch and terminates the batch
as `failed`/`error`. -/
def runV2Batch (env : BatchEnv) (b : BBatch) : BBatch × List BEv :=
  let b0 := { b with state := BState.running, started := true, phase := BPhase.validatePh }
  let (b1, evs1, canc1) :=
    if b0.tasksAsr then
      let (its, evs, c) := stage1Loop env b0.tasksDemucs b0.items 0
      ({ b0 with phase := BPhase.asrPh, items := its }, evs, c)
    else (b0, [], false)
  if canc1 then (markBatchDone b1 BState.canceled BPhase.donePh, evs1)
  else
    let k1 := if b0.tasksAsr then b0.items.length else 0
    let (b2, evs2, canc2, abort2) :=
      if b1.tasksDemucs then
        let (its, evs, c, a) := stage2Loop env b1.tasksAsr b1.outDir b1.items k1
        ({ b1 with phase := BPhase.demucsPh, items := its }, BEv.stage2Entry :: evs, c, a)
      else (b1, [], false, false)
    if canc2 then (markBatchDone b2 BState.canceled BPhase.donePh, evs1 ++ evs2)
    else if abort2 then
      (markBatchDone b2 BState.failed BPhase.errorPh,
       evs1 ++ evs2 ++ [BEv.batchFinal BState.failed])
    else
      let final := classifyBatch b2.items
      (markBatchDone b2 final BPhase.donePh, evs1 ++ evs2 ++ [BEv.batchFinal final])

/-! ### Single-item job engine (`runV2Job`) -/

inductive V2JobType
  | asr
  | demucs
  | asrDemucs
  deriving DecidableEq, Repr

inductive JState
  | queued
  | running
  | succeeded
  | failed
  deriving DecidableEq, Repr

/-- A job record as the engine mutates it. -/
structure V2JobM where
  jtype : V2JobType
  state : JState
  phase : IPhase
  started : Bool
  finished : Bool
  expires : Bool
  cleanupAudioOnFinish : Bool
  outDir : String
  srtReady : Bool := false
  vocalsReady : Bool := false
  noVocalsReady : Bool := false
  demucsZipReady : Bool := false
  resultZipReady : Bool := false
  error : Option V2JobError := none
  deriving DecidableEq, Repr

/-- Trace events of a job run. -/
inductive JobEv
  | enterPhase (ph : IPhase)
  | finalize (success : Bool)
  | delInput
  deriving DecidableEq, Repr

/-- Engine-outcome environment for one job run. -/
structure JobEnv where
  convertOk : Bool
  asrOk : Bool
  asrIsEngineCode : Bool := true
  sep : SepRun
  zipDemucsOk : Bool := true
  zipResultOk : Bool := true

/-- `finalizeSuccess` (server module, runV2Job). -/
def finalizeSuccessJ (j : V2JobM) : V2JobM :=
  { j with
    state := JState.succeeded, phase := IPhase.donePh,
    finished := true, expires := true }

/-- `finalizeFailure` (server module, runV2Job): terminal failure with the
code mapping of `finalizeFailureCode`. -/
def finalizeFailureJ (j : V2JobM) (e : JsError) : V2JobM :=
  { j with
    state := JState.failed, phase := IPhase.errorPh,
    finished := true, expires := true,
    error := some { code := finalizeFailureCode e.code, message := e.message } }

/-- The try-block of `runV2Job`: ASR stage, demucs stage, result bundle.
Returns the mutated job, the sequence of phases entered (each one persisted
on entry), and the thrown error if any. -/
def jobPipeline (env : JobEnv) (j : V2JobM) : V2JobM × List IPhase × Option JsError :=
  let step1 : V2JobM × List IPhase × Option JsError :=
    if j.jtype = V2JobType.asr ∨ j.jtype = V2JobType.asrDemucs then
      let j1 := { j with phase := IPhase.asrConvert }
      if env.convertOk then
        let j2 := { j1 with phase := IPhase.asrPh }
        if env.asrOk then
          ({ j2 with srtReady := true }, [IPhase.asrConvert, IPhase.asrPh], none)
        else
          (j2, [IPhase.asrConvert, IPhase.asrPh],
           some { message := "ASR engine failed",
                  code := some (if env.asrIsEngineCode then "engine_error" else "internal_error") })
      else
        (j1, [IPhase.asrConvert],
         some { message := "Failed to convert input audio to wav mono 16k",
                code := some "bad_audio" })
    else (j, [], none)
  match step1 with
  | (j1, evs1, some e) => (j1, evs1, some e)
  | (j1, evs1, none) =>
    let step2 : V2JobM × List IPhase × Option JsError :=
      if j1.jtype = V2JobType.demucs ∨ j1.jtype = V2JobType.asrDemucs then
        let j2 := { j1 with phase := IPhase.demucsPh }
        match runDemucs (pathJoin j1.outDir "demucs") env.sep with
        | Except.error e => (j2, [IPhase.demucsPh], some e)
        | Except.ok _ =>
          let j3 := { j2 with
                        vocalsReady := true, noVocalsReady := true,
                        phase := IPhase.zipDemucs }
          if env.zipDemucsOk then
            ({ j3 with demucsZipReady := true }, [IPhase.demucsPh, IPhase.zipDemucs], none)
          else
            (j3, [IPhase.demucsPh, IPhase.zipDemucs], some { message := "python zip failed" })
      else (j1, [], none)
    match step2 with
    | (j2, evs2, some e) => (j2, evs1 ++ evs2, some e)
    | (j2, evs2, none) =>
      if j2.jtype = V2JobType.asrDemucs ∧ j2.srtReady ∧ j2.vocalsReady ∧ j2.noVocalsReady then
        let j3 := { j2 with phase := IPhase.zipResult }
        if env.zipResultOk then
          ({ j3 with resultZipReady := true }, evs1 ++ evs2 ++ [IPhase.zipResult], none)
        else
          (j3, evs1 ++ evs2 ++ [IPhase.zipResult], some { message := "python zip failed" })
      else (j2, evs1 ++ evs2, none)

/-- `runV2Job`: entry transition, pipeline, finalize (success or failure),
then the `finally` block which removes the owned input exactly when
`cleanupAudioOnFinish` is set. -/
def runV2Job (env : JobEnv) (j : V2JobM) : V2JobM × List JobEv :=
  let j0 := { j with state := JState.running, started := true, phase := IPhase.queuedPh }
  let (j1, phs, eOpt) := jobPipeline env j0
  let j2 :=
    match eOpt with
    | none => finalizeSuccessJ j1
    | some e => finalizeFailureJ j1 e
  (j2,
   phs.map JobEv.enterPhase ++ [JobEv.finalize eOpt.isNone]
       ++ (if j.cleanupAudioOnFinish then [JobEv.delInput] else []))

/-! ### Lifecycle transitions and the timestamp invariant (C7) -/

def terminalJ (j : V2JobM) : Bool :=
  match j.state with
  | JState.succeeded => true
  | JState.failed => true
  | _ => false

def terminalB (b : BBatch) : Bool :=
  match b.state with
  | BState.succeeded => true
  | BState.failed => true
  | BState.canceled => true
  | _ => false

/-- Terminal records have both `finishedAt` and `expiresAt`; non-terminal
records have neither. -/
def jobTsInv (j : V2JobM) : Prop :=
  if terminalJ j then j.finished = true ∧ j.expires = true
  else j.finished = false ∧ j.expires = false

def batchTsInv (b : BBatch) : Prop :=
  if terminalB b then b.finished = true ∧ b.expires = true
  else b.finished = false ∧ b.expires = false

/-- Job entry transition of `runV2Job`. -/
def startJ (j : V2JobM) : V2JobM :=
  { j with state := JState.running, started := true, phase := IPhase.queuedPh }

/-- Startup sweep patch for a job found `queued`/`running` on disk
(`loadV2JobsFromDisk`). -/
def restartPatchJ (j : V2JobM) : V2JobM :=
  { j with
    state := JState.failed, phase := IPhase.errorPh,
    finished := true, expires := true,
    error := some { code := ErrCode.internal_error,
                    message := "Job interrupted by server restart. Please re-submit the job." } }

/-- Batch entry transition of `runV2Batch`. -/
def startB (b : BBatch) : BBatch :=
  { b with state := BState.running, started := true, phase := BPhase.validatePh }

/-- Startup sweep patch for a batch found `queued`/`running` on disk
(`loadV2BatchesFromDisk`); its queued/running items fail too. -/
def restartPatchB (b : BBatch) : BBatch :=
  { b with
    state := BState.failed, phase := BPhase.errorPh,
    finished := true, expires := true,
    items := b.items.map (fun it =>
      if it.state = IState.queued ∨ it.state = IState.running then
        { it with
          state := IState.failed, phase := IPhase.errorPh, finished := true,
          errorCode := some ErrCode.internal_error }
      else it) }

/-- A freshly created job record (`POST /v2/jobs`). -/
def initJob (ty : V2JobType) (cleanup : Bool) (outDir : String) : V2JobM :=
  { jtype := ty, state := JState.queued, phase := IPhase.queuedPh,
    started := false, finished := false, expires := false,
    cleanupAudioOnFinish := cleanup, outDir := outDir }

/-- A freshly created batch record (`POST /v2/batches`). -/
def initBatch (ta td : Bool) (outDir : String) (items : List BItem) : BBatch :=
  { state := BState.queued, phase := BPhase.validatePh,
    started := false, finished := false, expires := false,
    tasksAsr := ta, tasksDemucs := td, outDir := outDir, items := items }

/-- A job or batch record. -/
inductive RecSt
  | jobRec (j : V2JobM)
  | batchRec (b : BBatch)

def recTsInv : RecSt → Prop
  | RecSt.jobRec j => jobTsInv j
  | RecSt.batchRec b => batchTsInv b

/-- The state transitions the engines perform on job/batch records, with the
preconditions under which the code applies them: entry transitions fire on
queued records, mid-run phase/item updates on running records, the finalize
and `markBatchDone` transitions anywhere in a run (with terminal target
states), and the restart patches on records loaded as queued/running. -/
inductive EngineStep : RecSt → RecSt → Prop
  | jobStart (j : V2JobM) (h : j.state = JState.queued) :
      EngineStep (RecSt.jobRec j) (RecSt.jobRec (startJ j))
  | jobPhase (j : V2JobM) (ph : IPhase) (h : j.state = JState.running) :
      EngineStep (RecSt.jobRec j) (RecSt.jobRec { j with phase := ph })
  | jobFinalizeSuccess (j : V2JobM) :
      EngineStep (RecSt.jobRec j) (RecSt.jobRec (finalizeSuccessJ j))
  | jobFinalizeFailure (j : V2JobM) (e : JsError) :
      EngineStep (RecSt.jobRec j) (RecSt.jobRec (finalizeFailureJ j e))
  | jobRestart (j : V2JobM) (h : j.state = JState.queued ∨ j.state = JState.running) :
      EngineStep (RecSt.jobRec j) (RecSt.jobRec (restartPatchJ j))
  | batchStart (b : BBatch) (h : b.state = BState.queued) :
      EngineStep (RecSt.batchRec b) (RecSt.batchRec (startB b))
  | batchPhase (b : BBatch) (ph : BPhase) (h : b.state = BState.running) :
      EngineStep (RecSt.batchRec b) (RecSt.batchRec { b with phase := ph })
  | batchItems (b : BBatch) (its : List BItem) (h : b.state = BState.running) :
      EngineStep (RecSt.batchRec b) (RecSt.batchRec { b with items := its })
  | batchDone (b : BBatch) (st : BState) (ph : BPhase)
      (hst : st = BState.succeeded ∨ st = BState.failed ∨ st = BState.canceled) :
      EngineStep (RecSt.batchRec b) (RecSt.batchRec (markBatchDone b st ph))
  | batchRestart (b : BBatch) (h : b.state = BState.queued ∨ b.state = BState.running) :
      EngineStep (RecSt.batchRec b) (RecSt.batchRec (restartPatchB b))

/-! ### Trace helpers and per-item denotations -/

/-- Indices whose owned input is removed, in trace order (one entry per
removal). -/
def delIdxs (tr : List BEv) : List Nat :=
  tr.filterMap (fun ev =>
    match ev with
    | BEv.delOwned i => some i
    | _ => none)

/-- Indices of items entering `phase=demucs`, in trace order. -/
def demucsVisitedIdxs (tr : List BEv) : List Nat :=
  tr.filterMap (fun ev =>
    match ev with
    | BEv.enterPhase i IPhase.demucsPh => some i
    | _ => none)

/-- Indices of items entering `phase=asr_convert` (stage-1 processing
order). -/
def asrConvertIdxs (tr : List BEv) : List Nat :=
  tr.filterMap (fun ev =>
    match ev with
    | BEv.enterPhase i IPhase.asrConvert => some i
    | _ => none)

/-- Indices of the still-queued items of a list, in list order. -/
def queuedIdxs (its : List BItem) : List Nat :=
  (its.filter (fun it => it.state == IState.queued)).map BItem.idx

/-- Number of `delInput` events in a job trace. -/
def jobDelCount (tr : List JobEv) : Nat :=
  (tr.filter (fun ev => ev == JobEv.delInput)).length

/-- `Except.isOk` as a Boolean. -/
def exceptIsOk {ε α : Type} : Except ε α → Bool
  | Except.ok _ => true
  | Except.error _ => false

/-- What one stage-1 iteration does to a single item (the loop body applied
when the item is still queued, the identity otherwise). -/
def s1Item (env : BatchEnv) (td : Bool) (it : BItem) : BItem :=
  if it.state = IState.queued then (stage1Process env td it).1 else it

/-- The trace one stage-1 iteration emits for a single item. -/
def s1Evs (env : BatchEnv) (td : Bool) (it : BItem) : List BEv :=
  if it.state = IState.queued then (stage1Process env td it).2 else []

/-- What one stage-2 iteration does to a single item. -/
def s2Item (env : BatchEnv) (ta : Bool) (outDir : String) (it : BItem) : BItem :=
  if it.state = IState.queued then (stage2Process env ta outDir it).1 else it

/-- The trace one stage-2 iteration emits for a single item. -/
def s2Evs (env : BatchEnv) (ta : Bool) (outDir : String) (it : BItem) : List BEv :=
  if it.state = IState.queued then (stage2Process env ta outDir it).2.1 else []

/-- The items of a batch after a run in which no cancellation and no packer
abort occurred: stage 1 (when `tasks.asr`) then stage 2 (when
`tasks.demucs`), item-wise. -/
def batchItemsFinal (env : BatchEnv) (b : BBatch) : List BItem :=
  let items1 := if b.tasksAsr then b.items.map (s1Item env b.tasksDemucs) else b.items
  if b.tasksDemucs then items1.map (s2Item env b.tasksAsr b.outDir) else items1

/-- The trace of such a run. -/
def batchTraceNoCancel (env : BatchEnv) (b : BBatch) : List BEv :=
  (if b.tasksAsr then (b.items.map (s1Evs env b.tasksDemucs)).flatten else [])
  ++ ((if b.tasksDemucs then
        BEv.stage2Entry ::
          ((if b.tasksAsr then b.items.map (s1Item env b.tasksDemucs) else b.items).map
             (s2Evs env b.tasksAsr b.outDir)).flatten
      else [])
  ++ [BEv.batchFinal (classifyBatch (batchItemsFinal env b))])

/-! ## Concrete inputs used by counterexamples and witnesses -/

/-- A separator run that exits 0 but leaves no `vocals.mp3`/`no_vocals.mp3`
anywhere under the output tree. -/
def sepRunNoStems : SepRun :=
  { exitCode := some 0, signalName := none, stderrAcc := ""
  , filesUnderOutDir := ["/j/demucs/htdemucs_ft/input/other.mp3"] }

/-- The error `findDemucsOutputs` throws for `sepRunNoStems`. -/
def missingStemsErr : JsError :=
  { message := "Demucs outputs not found under /j/demucs" }

/-- A separator run that exits 1 with some stderr output. -/
def sepRunExit1 : SepRun :=
  { exitCode := some 1, signalName := none, stderrAcc := " boom\n"
  , filesUnderOutDir := [] }

/-- The error `runDemucs` rejects with for `sepRunExit1`. -/
def exit1Err : JsError :=
  { message := demucsFailMessage sepRunExit1, code := some "DEMUCS_FAILED" }

/-- An artifact entry persisted with an empty `name` but `ready=true` and
stale `bytes`. -/
def staleNamelessArtifact : V2ArtifactRec :=
  { name := "", path := "output.srt", ready := true, bytes := some 5 }

/-- A job.json carrying the nameless stale artifact. -/
def jobWithStaleNamelessArtifact : V2JobRec :=
  { id := "j1", outDir := "/old/jobs-v2/j1", artifacts := [("srt", staleNamelessArtifact)] }

/-- A filesystem holding only that job.json and no other file at all. -/
def fsStaleNameless : FS :=
  { meta := fun p =>
      if p = pathJoin "/tmp/jobs-v2/j1" "job.json" then some (some jobWithStaleNamelessArtifact)
      else none
  , stat := fun _ => none }

/-- A well-formed persisted srt artifact marked ready. -/
def srtArtifactOnDisk : V2ArtifactRec :=
  { name := "output.srt", path := "output.srt", ready := true, bytes := some 7 }

/-- A job.json carrying the srt artifact. -/
def jobWithSrtArtifact : V2JobRec :=
  { id := "j2", outDir := "/old/jobs-v2/j2", artifacts := [("srt", srtArtifactOnDisk)] }

/-- A filesystem holding that job.json but not the srt file. -/
def fsMissingSrt : FS :=
  { meta := fun p =>
      if p = pathJoin "/tmp/jobs-v2/j2" "job.json" then some (some jobWithSrtArtifact)
      else none
  , stat := fun _ => none }

/-- The artifact as `tryLoadV2Job` rewrites it for `fsMissingSrt`. -/
def loadedSrtArtifact : V2ArtifactRec :=
  { name := "output.srt", path := pathJoin "/tmp/jobs-v2/j2" "output.srt"
  , ready := false, bytes := none }

/-- The job record `tryLoadV2Job` returns for `fsMissingSrt`. -/
def loadedJobWithSrt : V2JobRec :=
  { id := "j2", outDir := "/tmp/jobs-v2/j2", artifacts := [("srt", loadedSrtArtifact)] }

/-- A freshly queued batch item. -/
def mkQueuedItem (n : Nat) (owned : Bool) : BItem :=
  { idx := n, ownedInput := owned, state := IState.queued, phase := IPhase.queuedPh
  , started := false, finished := false }

/-- A separator run that exits 0 and leaves both stems under the output
tree. -/
def sepRunOkStems : SepRun :=
  { exitCode := some 0, signalName := none, stderrAcc := ""
  , filesUnderOutDir :=
      [ "/b/items/0/demucs/htdemucs_ft/input/vocals.mp3"
      , "/b/items/0/demucs/htdemucs_ft/input/no_vocals.mp3" ] }

/-- Engine outcomes where every stage succeeds and cancellation is observed
from the fourth check on (i.e. during stage 2 of a two-item batch). -/
def envCancelDuringStage2 : BatchEnv :=
  { s1 := fun _ => S1Res.srtOk
  , s2 := fun _ => { sep := sepRunOkStems }
  , cancelFrom := some 3 }

/-- Two queued unowned items. -/
def twoQueuedItems : List BItem := [mkQueuedItem 0 false, mkQueuedItem 1 false]

/-- A two-item asr+demucs batch about to run. -/
def twoItemBatch : BBatch :=
  { state := BState.queued, phase := BPhase.validatePh
  , started := false, finished := false, expires := false
  , tasksAsr := true, tasksDemucs := true, outDir := "/b", items := twoQueuedItems }

/-- Engine outcomes where every stage succeeds and no cancellation ever
arrives. -/
def envAllOk : BatchEnv :=
  { s1 := fun _ => S1Res.srtOk
  , s2 := fun _ => { sep := sepRunOkStems }
  , cancelFrom := none }

/-- Engine outcomes without cancellation where stage 1 fails at the
transcode for every item. -/
def envConvertFails : BatchEnv :=
  { s1 := fun _ => S1Res.convertFail
  , s2 := fun _ => { sep := sepRunOkStems }
  , cancelFrom := none }

/-- A one-item batch whose single item owns its input (an upload). -/
def oneOwnedItemBatch : BBatch :=
  { state := BState.queued, phase := BPhase.validatePh
  , started := false, finished := false, expires := false
  , tasksAsr := true, tasksDemucs := true, outDir := "/b1"
  , items := [mkQueuedItem 0 true] }

/-- A job-engine environment where everything succeeds. -/
def jobEnvAllOk : JobEnv :=
  { convertOk := true, asrOk := true, sep := sepRunOkStems }

/-- A running job record mid-pipeline. -/
def runningJobEx : V2JobM :=
  { jtype := V2JobType.asr, state := JState.running, phase := IPhase.asrPh
  , started := true, finished := false, expires := false
  , cleanupAudioOnFinish := true, outDir := "/tmp/jobs-v2/jw" }

end FunAsr

namespace FunAsr

/-! # Claims -/

/-- C1: the claim says that for every recognize request with
`vadMaxSingleSegmentMs` / `vadMaxEndSilenceMs` set on the job, the JSON line
written to the worker's stdin contains those VAD fields in addition to
`type`, `id`, `audioPath`, `outDir`. The code contradicts this: evaluating
the payload built by `PythonAsrWorker.requestAsr` for a request that carries
both VAD values shows the line has exactly the four base keys and neither
VAD key, even though the caller passed them. -/
theorem requestAsr_line_drops_vad_fields :
    ((PythonAsrWorker.requestAsrLine 1
        { audioPath := "/tmp/jobs-v2/j1/asr.wav", outDir := "/tmp/jobs-v2/j1"
        , vadMaxSingleSegmentMs := some 5000
        , vadMaxEndSilenceMs := some 800 }).map Prod.fst
      = ["type", "id", "audioPath", "outDir"])
    ∧ "vadMaxSingleSegmentMs" ∉
        ((PythonAsrWorker.requestAsrLine 1
          { audioPath := "/tmp/jobs-v2/j1/asr.wav", outDir := "/tmp/jobs-v2/j1"
          , vadMaxSingleSegmentMs := some 5000
          , vadMaxEndSilenceMs := some 800 }).map Prod.fst)
    ∧ "vadMaxEndSilenceMs" ∉
        ((PythonAsrWorker.requestAsrLine 1
          { audioPath := "/tmp/jobs-v2/j1/asr.wav", outDir := "/tmp/jobs-v2/j1"
          , vadMaxSingleSegmentMs := some 5000
          , vadMaxEndSilenceMs := some 800 }).map Prod.fst) := by
  refine ⟨rfl, ?_, ?_⟩ <;> decide

/-- C2 counterexample: a separator subprocess that exits 0 with no
`vocals.mp3`/`no_vocals.mp3` under the output tree makes `runDemucs` throw
the code-less missing-outputs error, and the batch engine's per-item catch
records it as `bad_audio` — not `engine_error` as the claim states. -/
theorem sep_missing_stems_is_bad_audio_not_engine_error :
    runDemucs "/j/demucs" sepRunNoStems = Except.error missingStemsErr
    ∧ (batchItemSepError missingStemsErr).code = ErrCode.bad_audio
    ∧ ErrCode.bad_audio ≠ ErrCode.engine_error := by
  refine ⟨rfl, rfl, by decide⟩

/-- C2 amended: every failure of the separator adapter — non-zero exit and
missing stems alike — is recorded by the batch engine's per-item catch as
`bad_audio`, with the adapter's message (which for a non-zero exit is the
`demucs failed …` message carrying the truncated stderr tail) in the
details; on the single-job path the same errors reach `finalizeFailure`,
whose code mapping turns both adapter errors (`DEMUCS_FAILED` or no code at
all) into `internal_error`. -/
theorem sep_failure_code_mapping :
    ∀ (outDir : String) (r : SepRun) (e : JsError),
      runDemucs outDir r = Except.error e →
      (batchItemSepError e).code = ErrCode.bad_audio
      ∧ (batchItemSepError e).details = some e.message
      ∧ finalizeFailureCode e.code = ErrCode.internal_error
      ∧ (r.exitCode ≠ some 0 → e.message = demucsFailMessage r) := by
  intro outDir r e h
  unfold runDemucs at h
  by_cases hc : r.exitCode = some 0
  · rw [if_pos hc] at h
    rcases hv : (r.filesUnderOutDir.find? (fun f => endsWithStem f "vocals.mp3")) with _ | v <;>
      rcases hnv : (r.filesUnderOutDir.find? (fun f => endsWithStem f "no_vocals.mp3")) with _ | nv <;>
      rw [hv, hnv] at h <;> simp at h
    · rcases h with rfl
      exact ⟨rfl, rfl, rfl, fun hne => absurd hc hne⟩
    · rcases h with rfl
      exact ⟨rfl, rfl, rfl, fun hne => absurd hc hne⟩
    · rcases h with rfl
      exact ⟨rfl, rfl, rfl, fun hne => absurd hc hne⟩
  · rw [if_neg hc] at h
    simp at h
    rcases h with rfl
    exact ⟨rfl, rfl, rfl, fun _ => rfl⟩

/-- C2 amended, witness: the mapping evaluated at the concrete exit-1 run. -/
theorem sep_failure_code_mapping_witness :
    (batchItemSepError exit1Err).code = ErrCode.bad_audio
    ∧ finalizeFailureCode exit1Err.code = ErrCode.internal_error
    ∧ exit1Err.message = demucsFailMessage sepRunExit1 := by
  have h := sep_failure_code_mapping "/d" sepRunExit1 exit1Err rfl
  exact ⟨h.1, h.2.2.1, h.2.2.2 (by decide)⟩

/-- C4: every submission to the serial engine queue is accepted — the
acceptance flags of an arbitrary burst of submissions are all `true`
regardless of how many tasks are already waiting, the waiting count simply
grows by the number submitted, and draining the queue completes every
submitted task in FIFO order (each caller's handle resolves with its own
task's completion). -/
theorem serial_queue_unbounded_fifo :
    ∀ (q : SerialQueue) (ts : List QTask),
      (q.submitAll ts).2 = List.replicate ts.length true
      ∧ (q.submitAll ts).1.pending = q.pending + ts.length
      ∧ (SerialQueue.empty.submitAll ts).1.drain = ts := by
  have hq : ∀ (ts : List QTask) (q : SerialQueue),
      q.submitAll ts = ({ q with waiting := q.waiting ++ ts }, List.replicate ts.length true) := by
    intro ts
    induction ts with
    | nil => intro q; simp [SerialQueue.submitAll]
    | cons t ts ih =>
      intro q
      simp [SerialQueue.submitAll, SerialQueue.add, ih, List.replicate_succ]
  intro q ts
  refine ⟨?_, ?_, ?_⟩
  · rw [hq]
  · rw [hq]; simp [SerialQueue.pending]
  · rw [hq]; simp [SerialQueue.drain, SerialQueue.empty]

/-- C5: a recognize request that observes its first attempt fail (in
particular when the worker process dies, which rejects every pending
request) triggers exactly one respawn (`makeWorker`) and exactly one retry;
the retried request's outcome is surfaced as-is — a second failure
propagates, a success resolves the caller. -/
theorem asr_retry_once_then_surface :
    ∀ (oc : AsrAttempts) (e1 : String),
      oc.firstTry = AttemptOutcome.err e1 →
      (runAsrViaPython oc).attempts = 2
      ∧ (runAsrViaPython oc).respawns = 1
      ∧ (∀ e2, oc.retryTry = AttemptOutcome.err e2 →
          (runAsrViaPython oc).result = Except.error e2)
      ∧ (∀ s, oc.retryTry = AttemptOutcome.succ s →
          (runAsrViaPython oc).result = Except.ok s) := by
  intro oc e1 h
  cases hr : oc.retryTry <;>
    simp [runAsrViaPython, h, hr]

/-- C5 witness: a request whose two attempts both fail performs exactly one
retry and surfaces the second error. -/
theorem asr_retry_once_then_surface_witness :
    (runAsrViaPython
      { firstTry := AttemptOutcome.err "Python worker exited code=1 signal=null"
      , retryTry := AttemptOutcome.err "Python worker exited code=1 signal=null" }).attempts = 2
    ∧ (runAsrViaPython
      { firstTry := AttemptOutcome.err "Python worker exited code=1 signal=null"
      , retryTry := AttemptOutcome.err "Python worker exited code=1 signal=null" }).result
        = Except.error "Python worker exited code=1 signal=null" := by
  have h := asr_retry_once_then_surface
    { firstTry := AttemptOutcome.err "Python worker exited code=1 signal=null"
    , retryTry := AttemptOutcome.err "Python worker exited code=1 signal=null" }
    "Python worker exited code=1 signal=null" rfl
  exact ⟨h.1, h.2.2.1 _ rfl⟩

/-- C10: batch creation never rejects an unknown `options.policy` — the
parsed options always carry policy `stage-first` (any other value is
silently replaced by the default), and VAD values that are non-numeric
(NaN after JS `Number(...)`) or non-positive are silently dropped rather
than rejected; `parseBatchOptions` is a total function with no error path. -/
theorem batch_options_policy_forced_and_bad_vad_dropped :
    ∀ raw, (parseBatchOptions raw).policy = "stage-first"
    ∧ (∀ o v, raw = some o → o.vadMaxSingleSegmentMs = some v →
        (jToNumber v = none ∨ ∃ q, jToNumber v = some q ∧ q ≤ 0) →
        (parseBatchOptions raw).vadMaxSingleSegmentMs = none)
    ∧ (∀ o v, raw = some o → o.vadMaxEndSilenceMs = some v →
        (jToNumber v = none ∨ ∃ q, jToNumber v = some q ∧ q ≤ 0) →
        (parseBatchOptions raw).vadMaxEndSilenceMs = none) := by
  intro raw
  refine ⟨?_, ?_, ?_⟩
  · cases raw with
    | none => rfl
    | some o =>
      simp only [parseBatchOptions, defaultBatchOptions]
      split <;> rfl
  · rintro o v rfl hv hbad
    simp only [parseBatchOptions, hv]
    rcases hbad with hnan | ⟨q, hq, hle⟩
    · rw [hnan]
    · rw [hq]
      show (if 0 < q then some q else none) = none
      rw [if_neg (not_lt.mpr hle)]
  · rintro o v rfl hv hbad
    simp only [parseBatchOptions, hv]
    rcases hbad with hnan | ⟨q, hq, hle⟩
    · rw [hnan]
    · rw [hq]
      show (if 0 < q then some q else none) = none
      rw [if_neg (not_lt.mpr hle)]

/-- C10 witness: an unknown policy string together with a non-numeric and a
negative VAD value yields a batch with policy `stage-first` and no VAD
options. -/
theorem batch_options_policy_forced_witness :
    (parseBatchOptions (some
      { policy := some (JVal.jstr "item-first")
      , vadMaxSingleSegmentMs := some (JVal.jstr "abc")
      , vadMaxEndSilenceMs := some (JVal.jnum (-70)) })).policy = "stage-first"
    ∧ (parseBatchOptions (some
      { policy := some (JVal.jstr "item-first")
      , vadMaxSingleSegmentMs := some (JVal.jstr "abc")
      , vadMaxEndSilenceMs := some (JVal.jnum (-70)) })).vadMaxSingleSegmentMs = none
    ∧ (parseBatchOptions (some
      { policy := some (JVal.jstr "item-first")
      , vadMaxSingleSegmentMs := some (JVal.jstr "abc")
      , vadMaxEndSilenceMs := some (JVal.jnum (-70)) })).vadMaxEndSilenceMs = none := by
  have h := batch_options_policy_forced_and_bad_vad_dropped (some
    { policy := some (JVal.jstr "item-first")
    , vadMaxSingleSegmentMs := some (JVal.jstr "abc")
    , vadMaxEndSilenceMs := some (JVal.jnum (-70)) })
  refine ⟨h.1, h.2.1 _ _ rfl rfl (Or.inl (by decide)), h.2.2 _ _ rfl rfl ?_⟩
  exact Or.inr ⟨-70, rfl, by norm_num⟩

/-! ### Artifact-store lemmas (C6, C9) -/

theorem reconcileArtifact_run (outDir : String) (a : V2ArtifactRec) (fs : FS) :
    reconcileArtifact outDir a fs = (reconcileArtifactPure fs outDir a, fs) := by
  unfold reconcileArtifact reconcileArtifactPure statBytes
  by_cases h : a.name = "" ∨ a.path = ""
  · rw [if_pos h, if_pos h]
  · rw [if_neg h, if_neg h]
    cases hstat : fs.stat (if isAbsolutePath a.path then a.path else pathJoin outDir a.path) <;>
      simp [hstat]

theorem reconcileArtifacts_run (outDir : String) (l : List (String × V2ArtifactRec)) (fs : FS) :
    reconcileArtifacts outDir l fs
      = (l.map (fun ka => (ka.1, reconcileArtifactPure fs outDir ka.2)), fs) := by
  induction l with
  | nil => rfl
  | cons ka rest ih => simp [reconcileArtifacts, reconcileArtifact_run, ih]

theorem tryLoadV2Job_run (dirPath : String) (fs : FS) :
    tryLoadV2Job dirPath fs = (tryLoadV2JobPure fs dirPath, fs) := by
  unfold tryLoadV2Job tryLoadV2JobPure readMeta
  cases hm : fs.meta (pathJoin dirPath "job.json") with
  | none => rfl
  | some o =>
    cases o with
    | none => rfl
    | some j0 =>
      by_cases h1 : j0.id = ""
      · simp [h1]
      · by_cases h2 : j0.outDir = ""
        · simp [h1, h2]
        · simp [h1, h2, reconcileArtifacts_run]

theorem reconcileArtifactPure_name (fs : FS) (d : String) (a0 : V2ArtifactRec) :
    (reconcileArtifactPure fs d a0).name = a0.name := by
  unfold reconcileArtifactPure
  split_ifs
  · rfl
  · cases hstat : fs.stat a0.path <;> simp [hstat]
  · cases hstat : fs.stat (pathJoin d a0.path) <;> simp [hstat]

theorem reconcileArtifactPure_skip (fs : FS) (d : String) (a0 : V2ArtifactRec)
    (h : a0.name = "" ∨ a0.path = "") : reconcileArtifactPure fs d a0 = a0 := by
  unfold reconcileArtifactPure
  rw [if_pos h]

theorem reconcileArtifactPure_spec (fs : FS) (d : String) (a0 : V2ArtifactRec)
    (hn : a0.name ≠ "") (hp : a0.path ≠ "") :
    (reconcileArtifactPure fs d a0).ready
        = (fs.stat (reconcileArtifactPure fs d a0).path).isSome
    ∧ (reconcileArtifactPure fs d a0).bytes
        = fs.stat (reconcileArtifactPure fs d a0).path := by
  have hskip : ¬(a0.name = "" ∨ a0.path = "") := by tauto
  unfold reconcileArtifactPure
  rw [if_neg hskip]
  cases hstat : fs.stat (if isAbsolutePath a0.path then a0.path else pathJoin d a0.path) <;>
    simp [hstat]

/-- C9: `loadJob` is idempotent on an unchanged filesystem — the load
performs no writes (the filesystem after a load is the one before it), so a
second `tryLoadV2Job` of the same directory returns exactly the record the
first one returned. -/
theorem loadJob_idempotent_no_writes :
    ∀ (dirPath : String) (fs : FS),
      (tryLoadV2Job dirPath fs).2 = fs
      ∧ (tryLoadV2Job dirPath ((tryLoadV2Job dirPath fs).2)).1
          = (tryLoadV2Job dirPath fs).1 := by
  intro d fs
  simp [tryLoadV2Job_run]

/-- C6 counterexample: a persisted artifact whose `name` is empty is skipped
by the reconciliation guard, so its stale `ready=true` and `bytes` survive a
load even though no file exists anywhere on the filesystem — the claim that
every artifact of a loaded record has been reconciled is false. -/
theorem load_keeps_stale_ready_of_nameless_artifact :
    (tryLoadV2Job "/tmp/jobs-v2/j1" fsStaleNameless).1
      = some { id := "j1", outDir := "/tmp/jobs-v2/j1"
             , artifacts := [("srt", staleNamelessArtifact)] }
    ∧ staleNamelessArtifact.ready = true
    ∧ staleNamelessArtifact.bytes = some 5
    ∧ fsStaleNameless.stat "output.srt" = none
    ∧ fsStaleNameless.stat (pathJoin "/tmp/jobs-v2/j1" "output.srt") = none := by
  exact ⟨rfl, rfl, rfl, rfl, rfl⟩

/-- C6 amended: after `tryLoadV2Job` returns a record, every artifact with a
non-empty name and path has been reconciled — its path is resolved, and
`ready` is true with `bytes` the file size exactly when a regular file
exists there, else `ready` is false and `bytes` is dropped. Entries with an
empty (falsy) `name` or `path` are skipped and keep their persisted
fields. -/
theorem load_reconciles_nonempty_artifacts :
    ∀ (fs : FS) (dirPath : String) (j : V2JobRec),
      (tryLoadV2Job dirPath fs).1 = some j →
      ∀ k a, (k, a) ∈ j.artifacts → a.name ≠ "" → a.path ≠ "" →
        a.ready = (fs.stat a.path).isSome ∧ a.bytes = fs.stat a.path := by
  intro fs d j hload k a hmem hn hp
  rw [tryLoadV2Job_run] at hload
  simp only at hload
  unfold tryLoadV2JobPure at hload
  revert hload
  cases hm : fs.meta (pathJoin d "job.json") with
  | none => intro hload; cases hload
  | some o =>
    cases o with
    | none => intro hload; cases hload
    | some j0 =>
      by_cases h1 : j0.id = ""
      · simp [h1]
      · by_cases h2 : j0.outDir = ""
        · simp [h1, h2]
        · simp only [h1, h2, if_false, Option.some.injEq]
          intro hload
          subst hload
          simp only [List.mem_map] at hmem
          rcases hmem with ⟨ka0, hmem0, heq⟩
          have ha : a = reconcileArtifactPure fs d ka0.2 := by
            have := congrArg Prod.snd heq
            simpa using this.symm
          subst ha
          have hn0 : ka0.2.name ≠ "" := by
            rw [reconcileArtifactPure_name] at hn
            exact hn
          have hp0 : ka0.2.path ≠ "" := by
            intro h0
            rw [reconcileArtifactPure_skip fs d ka0.2 (Or.inr h0)] at hp
            exact hp h0
          exact reconcileArtifactPure_spec fs d ka0.2 hn0 hp0

/-- C6 amended, witness: the reconciliation property evaluated on a loaded
record whose srt file is missing. -/
theorem load_reconciles_nonempty_artifacts_witness :
    loadedSrtArtifact.ready = (fsMissingSrt.stat loadedSrtArtifact.path).isSome
    ∧ loadedSrtArtifact.bytes = fsMissingSrt.stat loadedSrtArtifact.path :=
  load_reconciles_nonempty_artifacts fsMissingSrt "/tmp/jobs-v2/j2" loadedJobWithSrt rfl
    "srt" loadedSrtArtifact (List.mem_singleton.mpr rfl) (by decide) (by decide)

/-! ### Batch-loop structure lemmas (C3, C8) -/

theorem cancelAt_none (env : BatchEnv) (h : env.cancelFrom = none) (k : Nat) :
    cancelAt env k = false := by
  simp [cancelAt, h]

theorem stage1Loop_noCancel (env : BatchEnv) (td : Bool) (h : env.cancelFrom = none) :
    ∀ (items : List BItem) (k : Nat),
      stage1Loop env td items k
        = (items.map (s1Item env td), (items.map (s1Evs env td)).flatten, false) := by
  intro items
  induction items with
  | nil => intro k; rfl
  | cons it rest ih =>
    intro k
    by_cases hq : it.state = IState.queued <;>
      simp [stage1Loop, cancelAt_none env h, hq, s1Item, s1Evs, ih (k + 1)]

theorem stage2Process_no_abort (env : BatchEnv) (ta : Bool) (outDir : String) (it : BItem)
    (hz1 : (env.s2 it.idx).zipDemucsOk = true) (hz2 : (env.s2 it.idx).zipResultOk = true) :
    (stage2Process env ta outDir it).2.2 = false := by
  unfold stage2Process
  cases hsep : runDemucs
      (pathJoin (pathJoin (pathJoin outDir "items") (toString it.idx)) "demucs")
      (env.s2 it.idx).sep with
  | error e => simp [hsep]
  | ok v =>
    by_cases hts : ta = true ∧ it.srtReady = true <;>
      simp [hsep, hz1, hz2, hts]

theorem stage2Loop_noCancel (env : BatchEnv) (ta : Bool) (outDir : String)
    (h : env.cancelFrom = none)
    (hz : ∀ n, (env.s2 n).zipDemucsOk = true ∧ (env.s2 n).zipResultOk = true) :
    ∀ (items : List BItem) (k : Nat),
      stage2Loop env ta outDir items k
        = (items.map (s2Item env ta outDir), (items.map (s2Evs env ta outDir)).flatten,
           false, false) := by
  intro items
  induction items with
  | nil => intro k; rfl
  | cons it rest ih =>
    intro k
    by_cases hq : it.state = IState.queued
    · have hab := stage2Process_no_abort env ta outDir it (hz it.idx).1 (hz it.idx).2
      rcases hp : stage2Process env ta outDir it with ⟨it2, evs2, ab⟩
      rw [hp] at hab
      simp only at hab
      subst hab
      simp [stage2Loop, cancelAt_none env h, hq, s2Item, s2Evs, ih (k + 1), hp]
    · simp [stage2Loop, cancelAt_none env h, hq, s2Item, s2Evs, ih (k + 1)]

theorem runV2Batch_noCancel (env : BatchEnv) (b : BBatch)
    (hcan : env.cancelFrom = none)
    (hz : ∀ n, (env.s2 n).zipDemucsOk = true ∧ (env.s2 n).zipResultOk = true) :
    (runV2Batch env b).1.items = batchItemsFinal env b
    ∧ (runV2Batch env b).2 = batchTraceNoCancel env b := by
  unfold runV2Batch batchTraceNoCancel
  cases hta : b.tasksAsr <;> cases htd : b.tasksDemucs <;>
    simp [stage1Loop_noCancel env _ hcan, stage2Loop_noCancel env _ _ hcan hz,
      markBatchDone, hta, htd, batchItemsFinal, List.map_map]

/-! ### Per-item trace lemmas (C3, C8) -/

theorem delIdxs_s1Evs_td_true (env : BatchEnv) (it : BItem) :
    delIdxs (s1Evs env true it) = [] := by
  unfold s1Evs stage1Process
  by_cases hq : it.state = IState.queued
  · cases hs : env.s1 it.idx <;> simp [hq, hs, delIdxs]
  · simp [hq, delIdxs]

theorem delIdxs_s1Evs_td_false (env : BatchEnv) (it : BItem) (hq : it.state = IState.queued) :
    delIdxs (s1Evs env false it)
      = (if (s1Item env false it).ownedInput
            && ((s1Item env false it).state == IState.succeeded)
         then [(s1Item env false it).idx] else []) := by
  unfold s1Evs s1Item stage1Process
  cases hs : env.s1 it.idx <;> cases ho : it.ownedInput <;>
    simp [hq, hs, ho, delIdxs]

theorem delIdxs_s2Evs (env : BatchEnv) (ta : Bool) (outDir : String) (it : BItem)
    (hz1 : (env.s2 it.idx).zipDemucsOk = true) (hz2 : (env.s2 it.idx).zipResultOk = true)
    (hns : it.state ≠ IState.succeeded) :
    delIdxs (s2Evs env ta outDir it)
      = (if (s2Item env ta outDir it).ownedInput
            && ((s2Item env ta outDir it).state == IState.succeeded)
         then [(s2Item env ta outDir it).idx] else []) := by
  unfold s2Evs s2Item stage2Process
  by_cases hq : it.state = IState.queued
  · cases hsep : runDemucs
        (pathJoin (pathJoin (pathJoin outDir "items") (toString it.idx)) "demucs")
        (env.s2 it.idx).sep with
    | error e => simp [hq, hsep, delIdxs]
    | ok v =>
      by_cases hts : ta = true ∧ it.srtReady = true <;> cases ho : it.ownedInput <;>
        simp [hq, hsep, hz1, hz2, hts, ho, delIdxs]
  · have hbeq : (it.state == IState.succeeded) = false := by
      cases hst : it.state <;> simp_all
    simp [hq, hbeq, delIdxs]

theorem s1Item_td_true_not_succeeded (env : BatchEnv) (it : BItem)
    (hq : it.state = IState.queued) :
    (s1Item env true it).state ≠ IState.succeeded := by
  unfold s1Item stage1Process
  cases hs : env.s1 it.idx <;> simp [hq, hs]

theorem s1Item_idx (env : BatchEnv) (td : Bool) (it : BItem) :
    (s1Item env td it).idx = it.idx := by
  unfold s1Item stage1Process
  by_cases hq : it.state = IState.queued
  · cases hs : env.s1 it.idx <;> cases htd : td <;> simp [hq, hs]
  · simp [hq]

theorem s1Item_no_running_srt (env : BatchEnv) (td : Bool) (it : BItem)
    (hq : it.state = IState.queued) :
    (s1Item env td it).state ≠ IState.running
    ∧ ((s1Item env td it).state = IState.queued → (s1Item env td it).srtReady = true) := by
  unfold s1Item stage1Process
  cases hs : env.s1 it.idx <;> cases htd : td <;> simp [hq, hs]

theorem asrConvertIdxs_s1Evs (env : BatchEnv) (td : Bool) (it : BItem) :
    asrConvertIdxs (s1Evs env td it)
      = (if (it.state == IState.queued) then [it.idx] else []) := by
  unfold s1Evs stage1Process asrConvertIdxs
  by_cases hq : it.state = IState.queued
  · cases hs : env.s1 it.idx <;> cases htd : td <;> cases ho : it.ownedInput <;>
      simp [hq, hs]
  · simp [hq]

theorem demucsIdxs_s1Evs (env : BatchEnv) (td : Bool) (it : BItem) :
    demucsVisitedIdxs (s1Evs env td it) = [] := by
  unfold s1Evs stage1Process demucsVisitedIdxs
  by_cases hq : it.state = IState.queued
  · cases hs : env.s1 it.idx <;> cases htd : td <;> cases ho : it.ownedInput <;>
      simp [hq, hs]
  · simp [hq]

theorem asrConvertIdxs_s2Evs (env : BatchEnv) (ta : Bool) (outDir : String) (it : BItem) :
    asrConvertIdxs (s2Evs env ta outDir it) = [] := by
  unfold s2Evs stage2Process asrConvertIdxs
  by_cases hq : it.state = IState.queued
  · cases hsep : runDemucs
        (pathJoin (pathJoin (pathJoin outDir "items") (toString it.idx)) "demucs")
        (env.s2 it.idx).sep with
    | error e => simp [hq, hsep]
    | ok v =>
      by_cases hts : ta = true ∧ it.srtReady = true <;>
        cases hz1 : (env.s2 it.idx).zipDemucsOk <;>
        cases hz2 : (env.s2 it.idx).zipResultOk <;>
        cases ho : it.ownedInput <;>
        simp [hq, hsep, hts, hz1, hz2, ho]
  · simp [hq]

theorem demucsIdxs_s2Evs (env : BatchEnv) (ta : Bool) (outDir : String) (it : BItem) :
    demucsVisitedIdxs (s2Evs env ta outDir it)
      = (if (it.state == IState.queued) then [it.idx] else []) := by
  unfold s2Evs stage2Process demucsVisitedIdxs
  by_cases hq : it.state = IState.queued
  · cases hsep : runDemucs
        (pathJoin (pathJoin (pathJoin outDir "items") (toString it.idx)) "demucs")
        (env.s2 it.idx).sep with
    | error e => simp [hq, hsep]
    | ok v =>
      by_cases hts : ta = true ∧ it.srtReady = true <;>
        cases hz1 : (env.s2 it.idx).zipDemucsOk <;>
        cases hz2 : (env.s2 it.idx).zipResultOk <;>
        cases ho : it.ownedInput <;>
        simp [hq, hsep, hts, hz1, hz2, ho]
  · simp [hq]

/-- Flattened per-item traces project to the filtered index list. -/
theorem filterMapIdx_flatten (p : BEv → Option Nat) (g : BItem → BItem)
    (f : BItem → List BEv) (cond : BItem → Bool) :
    ∀ (items : List BItem),
      (∀ it ∈ items, (f it).filterMap p = (if cond (g it) then [(g it).idx] else [])) →
      ((items.map f).flatten).filterMap p
        = ((items.map g).filter cond).map BItem.idx := by
  intro items
  induction items with
  | nil => intro h; rfl
  | cons it rest ih =>
    intro h
    have hit := h it (by simp)
    have hrest := ih (fun it2 hm => h it2 (by simp [hm]))
    simp only [List.map_cons, List.flatten_cons, List.filterMap_append, hit, List.filter_cons]
    by_cases hc : cond (g it) = true <;> simp [hc, hrest]

/-- Flattened per-item traces with an empty projection flatten to nothing. -/
theorem filterMapIdx_flatten_nil (p : BEv → Option Nat) (f : BItem → List BEv) :
    ∀ (items : List BItem),
      (∀ it ∈ items, (f it).filterMap p = []) →
      ((items.map f).flatten).filterMap p = [] := by
  intro items
  induction items with
  | nil => intro h; rfl
  | cons it rest ih =>
    intro h
    simp only [List.map_cons, List.flatten_cons, List.filterMap_append,
      h it (by simp), ih (fun it2 hm => h it2 (by simp [hm]))]
    rfl

theorem jobDelCount_append (a b : List JobEv) :
    jobDelCount (a ++ b) = jobDelCount a + jobDelCount b := by
  simp [jobDelCount, List.filter_append]

theorem jobDelCount_phases (l : List IPhase) :
    jobDelCount (l.map JobEv.enterPhase) = 0 := by
  induction l with
  | nil => rfl
  | cons p rest ih =>
    simp only [List.map_cons, jobDelCount, List.filter_cons]
    have hb : (JobEv.enterPhase p == JobEv.delInput) = false := rfl
    rw [hb]
    exact ih

/-- C3 counterexample: a batch item owning its input (an upload) that fails
at the transcode stage reaches its terminal transition (`failed`, finishedAt
set) with its owned input never deleted — the trace contains no removal —
contradicting the claim that owned inputs are deleted at the terminal
transition whether the item succeeded or failed. -/
theorem failed_item_keeps_owned_input :
    ((runV2Batch envConvertFails oneOwnedItemBatch).1.items.map BItem.state
        = [IState.failed])
    ∧ ((runV2Batch envConvertFails oneOwnedItemBatch).1.items.map BItem.finished
        = [true])
    ∧ ((runV2Batch envConvertFails oneOwnedItemBatch).1.items.map BItem.ownedInput
        = [true])
    ∧ delIdxs (runV2Batch envConvertFails oneOwnedItemBatch).2 = [] := by
  refine ⟨rfl, rfl, rfl, rfl⟩

/-- C3 amended: the single-job engine removes the owned input exactly once,
in the `finally` block right after the terminal transition, whether the job
succeeded or failed, and never touches an unowned input; the batch engine
(in runs without cancellation or packer aborts, starting from queued items)
removes owned inputs exactly of the items that terminate `succeeded`, once
each, in item order — items that terminate `failed` keep their owned inputs
until the reaper removes the batch directory, and unowned inputs are never
removed. -/
theorem owned_input_deletion_discipline :
    (∀ (env : JobEnv) (j : V2JobM),
        jobDelCount (runV2Job env j).2 = (if j.cleanupAudioOnFinish then 1 else 0)
        ∧ terminalJ (runV2Job env j).1 = true
        ∧ (j.cleanupAudioOnFinish = true →
            (runV2Job env j).2.getLast? = some JobEv.delInput))
    ∧ (∀ (env : BatchEnv) (b : BBatch),
        env.cancelFrom = none →
        (∀ n, (env.s2 n).zipDemucsOk = true ∧ (env.s2 n).zipResultOk = true) →
        (∀ it ∈ b.items, it.state = IState.queued) →
        delIdxs (runV2Batch env b).2
          = (((runV2Batch env b).1.items).filter
               (fun it => it.ownedInput && (it.state == IState.succeeded))).map BItem.idx) := by
  constructor
  · intro env j
    unfold runV2Job
    rcases hpp : jobPipeline env
        { j with state := JState.running, started := true, phase := IPhase.queuedPh }
      with ⟨j1, phs, eOpt⟩
    simp only [hpp]
    cases eOpt <;> cases hcl : j.cleanupAudioOnFinish <;>
      simp [jobDelCount_append, jobDelCount_phases, jobDelCount,
        finalizeSuccessJ, finalizeFailureJ, terminalJ, hcl, List.getLast?_concat]
  · intro env b hcan hz hinit
    obtain ⟨hitems, htr⟩ := runV2Batch_noCancel env b hcan hz
    rw [htr, hitems]
    unfold batchTraceNoCancel batchItemsFinal
    cases hta : b.tasksAsr <;> cases htd : b.tasksDemucs <;>
      simp only [if_true, if_false, Bool.false_eq_true, Bool.true_eq_false, ite_true, ite_false]
    · -- no stages at all: no deletes, and no item ends succeeded
      have hfil : b.items.filter
          (fun it => it.ownedInput && (it.state == IState.succeeded)) = [] := by
        rw [List.filter_eq_nil_iff]
        intro it hm
        simp [hinit it hm]
      simp [delIdxs, hfil]
    · -- demucs only
      have hmain := filterMapIdx_flatten
        (fun ev => match ev with | BEv.delOwned i => some i | _ => none)
        (s2Item env false b.outDir) (s2Evs env false b.outDir)
        (fun it => it.ownedInput && (it.state == IState.succeeded))
        b.items
        (fun it hm => delIdxs_s2Evs env false b.outDir it (hz it.idx).1 (hz it.idx).2
          (by rw [hinit it hm]; intro hcontra; cases hcontra))
      simp only [delIdxs, List.filterMap_append] at hmain ⊢
      simp [hmain]
    · -- asr only
      have hmain := filterMapIdx_flatten
        (fun ev => match ev with | BEv.delOwned i => some i | _ => none)
        (s1Item env false) (s1Evs env false)
        (fun it => it.ownedInput && (it.state == IState.succeeded))
        b.items
        (fun it hm => delIdxs_s1Evs_td_false env it (hinit it hm))
      simp only [delIdxs, List.filterMap_append] at hmain ⊢
      simp [hmain]
    · -- both stages
      have hs1 : ∀ it ∈ b.items, delIdxs (s1Evs env true it) = [] :=
        fun it _ => delIdxs_s1Evs_td_true env it
      have hnil := filterMapIdx_flatten_nil
        (fun ev => match ev with | BEv.delOwned i => some i | _ => none)
        (s1Evs env true) b.items (fun it hm => hs1 it hm)
      have hmain := filterMapIdx_flatten
        (fun ev => match ev with | BEv.delOwned i => some i | _ => none)
        (s2Item env true b.outDir) (s2Evs env true b.outDir)
        (fun it => it.ownedInput && (it.state == IState.succeeded))
        (b.items.map (s1Item env true))
        (fun it1 hm => by
          rcases List.mem_map.mp hm with ⟨it0, hm0, heq⟩
          subst heq
          exact delIdxs_s2Evs env true b.outDir _ (hz _).1 (hz _).2
            (s1Item_td_true_not_succeeded env it0 (hinit it0 hm0)))
      simp only [delIdxs] at hnil hmain ⊢
      rw [List.filterMap_append, hnil, List.nil_append]
      simp only [List.filterMap_cons, List.filterMap_append, hmain]
      simp

/-- C3 amended, witness: a one-item batch whose owned item succeeds both
stages has its input removed exactly once, and a succeeding job with an
owned input likewise. -/
theorem owned_input_deletion_discipline_witness :
    delIdxs (runV2Batch envAllOk oneOwnedItemBatch).2
      = (((runV2Batch envAllOk oneOwnedItemBatch).1.items).filter
           (fun it => it.ownedInput && (it.state == IState.succeeded))).map BItem.idx
    ∧ jobDelCount (runV2Job jobEnvAllOk (initJob V2JobType.asr true "/tmp/jobs-v2/jw")).2 = 1 := by
  constructor
  · exact owned_input_deletion_discipline.2 envAllOk oneOwnedItemBatch rfl
      (fun n => ⟨rfl, rfl⟩) (by decide)
  · have h := (owned_input_deletion_discipline.1 jobEnvAllOk
      (initJob V2JobType.asr true "/tmp/jobs-v2/jw")).1
    simpa using h

/-! ### General loop lemmas: arbitrary cancellation and packer outcomes (C8) -/

/-- Stage 1 never emits a `phase=demucs` entry, in any run. -/
theorem stage1Loop_demucsIdxs (env : BatchEnv) (td : Bool) :
    ∀ (items : List BItem) (k : Nat),
      demucsVisitedIdxs (stage1Loop env td items k).2.1 = [] := by
  intro items
  induction items with
  | nil => intro k; rfl
  | cons it rest ih =>
    intro k
    by_cases hc : cancelAt env k = true
    · simp [stage1Loop, hc, demucsVisitedIdxs]
    · by_cases hq : it.state = IState.queued
      · have hone : demucsVisitedIdxs (stage1Process env td it).2 = [] := by
          have := demucsIdxs_s1Evs env td it
          rw [s1Evs, if_pos hq] at this
          exact this
        simp only [stage1Loop, hc, hq, if_true, if_false, Bool.false_eq_true]
        simp only [demucsVisitedIdxs, List.filterMap_append] at hone ih ⊢
        simp [hone, ih (k + 1)]
      · simp only [stage1Loop, hc, hq, if_true, if_false, Bool.false_eq_true]
        exact ih (k + 1)

/-- Stage 1 never emits the stage-2 entry marker. -/
theorem stage1Loop_no_stage2Entry (env : BatchEnv) (td : Bool) :
    ∀ (items : List BItem) (k : Nat),
      BEv.stage2Entry ∉ (stage1Loop env td items k).2.1 := by
  intro items
  induction items with
  | nil => intro k h; cases h
  | cons it rest ih =>
    intro k
    by_cases hc : cancelAt env k = true
    · simp [stage1Loop, hc]
    · by_cases hq : it.state = IState.queued
      · have hone : BEv.stage2Entry ∉ (stage1Process env td it).2 := by
          unfold stage1Process
          cases hs : env.s1 it.idx <;> cases ho : it.ownedInput <;> cases htd2 : td <;>
            simp [hs, ho]
        simp only [stage1Loop, hc, hq, if_true, if_false, Bool.false_eq_true]
        intro hmem
        rcases List.mem_append.mp hmem with hmem | hmem
        · exact hone hmem
        · exact ih (k + 1) hmem
      · simp only [stage1Loop, hc, hq, if_true, if_false, Bool.false_eq_true]
        exact ih (k + 1)

/-- Stage-1 `asr_convert` entries form a subsequence of the item indices, in
any run (a cancellation truncates the subsequence). -/
theorem stage1Loop_asrIdxs_sublist (env : BatchEnv) (td : Bool) :
    ∀ (items : List BItem) (k : Nat),
      List.Sublist (asrConvertIdxs (stage1Loop env td items k).2.1)
        (items.map BItem.idx) := by
  intro items
  induction items with
  | nil => intro k; exact List.Sublist.refl []
  | cons it rest ih =>
    intro k
    by_cases hc : cancelAt env k = true
    · simp only [stage1Loop, hc, if_true]
      simp [asrConvertIdxs, List.nil_sublist]
    · by_cases hq : it.state = IState.queued
      · have hone : asrConvertIdxs (stage1Process env td it).2 = [it.idx] := by
          have := asrConvertIdxs_s1Evs env td it
          rw [s1Evs, if_pos hq] at this
          simpa [hq] using this
        simp only [stage1Loop, hc, hq, if_true, if_false, Bool.false_eq_true]
        simp only [asrConvertIdxs, List.filterMap_append] at hone ih ⊢
        rw [hone]
        exact List.Sublist.cons₂ it.idx (ih (k + 1))
      · simp only [stage1Loop, hc, hq, if_true, if_false, Bool.false_eq_true]
        exact List.Sublist.cons it.idx (ih (k + 1))

/-- A stage-1 run that did not observe cancellation is the item-wise map. -/
theorem stage1Loop_of_not_canceled (env : BatchEnv) (td : Bool) :
    ∀ (items : List BItem) (k : Nat),
      (stage1Loop env td items k).2.2 = false →
      stage1Loop env td items k
        = (items.map (s1Item env td), (items.map (s1Evs env td)).flatten, false) := by
  intro items
  induction items with
  | nil => intro k _; rfl
  | cons it rest ih =>
    intro k h
    by_cases hc : cancelAt env k = true
    · rw [stage1Loop, if_pos hc] at h
      cases h
    · by_cases hq : it.state = IState.queued
      · rw [stage1Loop, if_neg hc, if_pos hq] at h ⊢
        have hrest := ih (k + 1) (by simpa using h)
        simp [hrest, s1Item, s1Evs, hq]
      · rw [stage1Loop, if_neg hc, if_neg hq] at h ⊢
        have hrest := ih (k + 1) (by simpa using h)
        simp [hrest, s1Item, s1Evs, hq]

/-- Stage 2 never emits a `phase=asr_convert` entry, in any run. -/
theorem stage2Loop_asrIdxs (env : BatchEnv) (ta : Bool) (outDir : String) :
    ∀ (items : List BItem) (k : Nat),
      asrConvertIdxs (stage2Loop env ta outDir items k).2.1 = [] := by
  intro items
  induction items with
  | nil => intro k; rfl
  | cons it rest ih =>
    intro k
    by_cases hc : cancelAt env k = true
    · simp [stage2Loop, hc, asrConvertIdxs]
    · by_cases hq : it.state = IState.queued
      · have hone : asrConvertIdxs (stage2Process env ta outDir it).2.1 = [] := by
          have := asrConvertIdxs_s2Evs env ta outDir it
          rw [s2Evs, if_pos hq] at this
          exact this
        rcases hp : stage2Process env ta outDir it with ⟨it2, evs2, ab⟩
        rw [hp] at hone
        simp only at hone
        cases ab
        · simp only [stage2Loop, hc, hq, if_true, if_false, Bool.false_eq_true, hp]
          simp only [asrConvertIdxs, List.filterMap_append] at hone ih ⊢
          simp [hone, ih (k + 1)]
        · simp only [stage2Loop, hc, hq, if_true, if_false, Bool.false_eq_true, hp]
          simpa [asrConvertIdxs] using hone
      · simp only [stage2Loop, hc, hq, if_true, if_false, Bool.false_eq_true]
        exact ih (k + 1)

/-- Stage-2 `demucs` entries form a subsequence of the item indices, in any
run (cancellations and packer aborts truncate the subsequence). -/
theorem stage2Loop_demucsIdxs_sublist (env : BatchEnv) (ta : Bool) (outDir : String) :
    ∀ (items : List BItem) (k : Nat),
      List.Sublist (demucsVisitedIdxs (stage2Loop env ta outDir items k).2.1)
        (items.map BItem.idx) := by
  intro items
  induction items with
  | nil => intro k; exact List.Sublist.refl []
  | cons it rest ih =>
    intro k
    by_cases hc : cancelAt env k = true
    · simp only [stage2Loop, hc, if_true]
      simp [demucsVisitedIdxs, List.nil_sublist]
    · by_cases hq : it.state = IState.queued
      · have hone : demucsVisitedIdxs (stage2Process env ta outDir it).2.1 = [it.idx] := by
          have := demucsIdxs_s2Evs env ta outDir it
          rw [s2Evs, if_pos hq] at this
          simpa [hq] using this
        rcases hp : stage2Process env ta outDir it with ⟨it2, evs2, ab⟩
        rw [hp] at hone
        simp only at hone
        cases ab
        · simp only [stage2Loop, hc, hq, if_true, if_false, Bool.false_eq_true, hp]
          simp only [demucsVisitedIdxs, List.filterMap_append] at hone ih ⊢
          rw [hone]
          exact List.Sublist.cons₂ it.idx (ih (k + 1))
        · simp only [stage2Loop, hc, hq, if_true, if_false, Bool.false_eq_true, hp]
          simp only [demucsVisitedIdxs] at hone ⊢
          rw [hone]
          exact List.Sublist.cons₂ it.idx (List.nil_sublist _)
      · simp only [stage2Loop, hc, hq, if_true, if_false, Bool.false_eq_true]
        exact List.Sublist.cons it.idx (ih (k + 1))

/-- A stage-2 run that observes cancellation stops after a prefix of the
items: it equals the run on that prefix, every remaining item is put through
`cancelRemaining` (still-queued ones become canceled), and no item beyond
the prefix is visited. -/
theorem stage2Loop_canceled_split (env : BatchEnv) (ta : Bool) (outDir : String) :
    ∀ (items : List BItem) (k : Nat),
      (stage2Loop env ta outDir items k).2.2.1 = true →
      ∃ p, p ≤ items.length
        ∧ (stage2Loop env ta outDir items k).1
            = (stage2Loop env ta outDir (items.take p) k).1
              ++ (items.drop p).map cancelItem
        ∧ (stage2Loop env ta outDir items k).2.1
            = (stage2Loop env ta outDir (items.take p) k).2.1
              ++ [BEv.batchFinal BState.canceled] := by
  intro items
  induction items with
  | nil => intro k h; cases h
  | cons it rest ih =>
    intro k h
    by_cases hc : cancelAt env k = true
    · refine ⟨0, Nat.zero_le _, ?_, ?_⟩ <;>
        simp [stage2Loop, hc]
    · by_cases hq : it.state = IState.queued
      · rcases hp : stage2Process env ta outDir it with ⟨it2, evs2, ab⟩
        cases ab
        · -- processed without abort; the cancellation was observed later
          rw [stage2Loop, if_neg hc, if_pos hq, hp] at h
          simp only [Bool.false_eq_true, if_false] at h
          have hrest := ih (k + 1) (by simpa using h)
          rcases hrest with ⟨p, hple, hitems, htr⟩
          refine ⟨p + 1, by simpa using Nat.succ_le_succ hple, ?_, ?_⟩
          · rw [stage2Loop, if_neg hc, if_pos hq, hp]
            simp only [Bool.false_eq_true, if_false, List.take_succ_cons]
            rw [stage2Loop, if_neg hc, if_pos hq, hp]
            simp only [Bool.false_eq_true, if_false, List.drop_succ_cons]
            simp [hitems]
          · rw [stage2Loop, if_neg hc, if_pos hq, hp]
            simp only [Bool.false_eq_true, if_false, List.take_succ_cons]
            rw [stage2Loop, if_neg hc, if_pos hq, hp]
            simp only [Bool.false_eq_true, if_false]
            simp [htr]
        · -- an abort returns with the canceled flag false, contradiction
          rw [stage2Loop, if_neg hc, if_pos hq, hp] at h
          simp at h
      · rw [stage2Loop, if_neg hc, if_neg hq] at h
        have hrest := ih (k + 1) (by simpa using h)
        rcases hrest with ⟨p, hple, hitems, htr⟩
        refine ⟨p + 1, by simpa using Nat.succ_le_succ hple, ?_, ?_⟩
        · rw [stage2Loop, if_neg hc, if_neg hq]
          simp only [List.take_succ_cons]
          rw [stage2Loop, if_neg hc, if_neg hq]
          simp only [List.drop_succ_cons]
          simp [hitems]
        · rw [stage2Loop, if_neg hc, if_neg hq]
          simp only [List.take_succ_cons]
          rw [stage2Loop, if_neg hc, if_neg hq]
          simp [htr]

/-- C8 counterexample: in a two-item asr+demucs batch where cancellation is
requested while item 0 is in its demucs phase, both items are still queued
at stage-2 entry, yet stage 2 visits only item 0 — item 1 is marked
canceled without ever entering `phase=demucs` — so stage 2 does not visit
exactly the items still queued at stage-2 entry. -/
theorem cancel_mid_stage2_skips_queued_items :
    queuedIdxs (stage1Loop envCancelDuringStage2 true twoQueuedItems 0).1 = [0, 1]
    ∧ demucsVisitedIdxs (runV2Batch envCancelDuringStage2 twoItemBatch).2 = [0]
    ∧ ((runV2Batch envCancelDuringStage2 twoItemBatch).1.items.map BItem.state)
        = [IState.succeeded, IState.canceled] := by
  refine ⟨rfl, rfl, rfl⟩

/-- The trace of a both-task batch run, in terms of the two stage loops. -/
theorem runV2Batch_run (env : BatchEnv) (b : BBatch)
    (hta : b.tasksAsr = true) (htd : b.tasksDemucs = true)
    (its1 : List BItem) (evs1 : List BEv) (canc1 : Bool)
    (h1 : stage1Loop env true b.items 0 = (its1, evs1, canc1)) :
    (canc1 = true → (runV2Batch env b).2 = evs1)
    ∧ (canc1 = false →
        ∀ its2 evs2 canc2 ab2,
          stage2Loop env true b.outDir its1 b.items.length = (its2, evs2, canc2, ab2) →
          (runV2Batch env b).2
            = evs1 ++ (BEv.stage2Entry :: evs2)
              ++ (if canc2 = true then []
                  else if ab2 = true then [BEv.batchFinal BState.failed]
                  else [BEv.batchFinal (classifyBatch its2)])) := by
  constructor
  · intro hc1
    subst hc1
    unfold runV2Batch
    simp [hta, htd, h1]
  · intro hc1 its2 evs2 canc2 ab2 h2
    subst hc1
    unfold runV2Batch
    simp only [hta, htd, h1]
    cases canc2 <;> cases ab2 <;>
      simp [hta, htd, h1, h2, markBatchDone]

theorem takeWhile_ne_all (v : BEv) :
    ∀ (l : List BEv), (∀ x ∈ l, x ≠ v) →
      l.takeWhile (fun x => x != v) = l := by
  intro l
  induction l with
  | nil => intro h; rfl
  | cons x rest ih =>
    intro h
    have hx : (x != v) = true := by simpa [bne_iff_ne] using h x (by simp)
    simp [List.takeWhile_cons, hx, ih (fun y hy => h y (by simp [hy]))]

theorem takeWhile_until (v : BEv) :
    ∀ (l1 l2 : List BEv), (∀ x ∈ l1, x ≠ v) →
      ((l1 ++ v :: l2).takeWhile (fun x => x != v)) = l1 := by
  intro l1
  induction l1 with
  | nil =>
    intro l2 h
    have hv : (v != v) = false := by simp
    simp [List.takeWhile_cons, hv]
  | cons x rest ih =>
    intro l2 h
    have hx : (x != v) = true := by simpa [bne_iff_ne] using h x (by simp)
    simp [List.takeWhile_cons, hx, ih l2 (fun y hy => h y (by simp [hy]))]

/-- C8 amended: in every batch whose tasks include both asr and demucs
(items initially queued, indices increasing), in every run — whatever
cancellations or packer failures occur — stage-1 items are processed in
index order, stage-2 items are visited in index order, no item enters
`phase=demucs` before the stage-2 entry persist, and at stage-2 entry every
item has finished stage 1 (no item running; still-queued items have their
SRT published). In runs where no cancellation is observed and no packer
failure aborts the batch, stage 2 visits exactly the items still queued at
stage-2 entry. When cancellation is observed at a stage-2 check, the loop
stops after a prefix of the items: the run equals the run on that prefix,
every remaining item goes through `cancelRemaining` (still-queued ones
become canceled), and no item beyond the prefix enters `phase=demucs`. -/
theorem stage_first_ordering :
    ∀ (env : BatchEnv) (b : BBatch),
      b.tasksAsr = true → b.tasksDemucs = true →
      (∀ it ∈ b.items, it.state = IState.queued) →
      List.Pairwise (· < ·) (b.items.map BItem.idx) →
      List.Pairwise (· < ·) (asrConvertIdxs (runV2Batch env b).2)
      ∧ List.Pairwise (· < ·) (demucsVisitedIdxs (runV2Batch env b).2)
      ∧ demucsVisitedIdxs
          ((runV2Batch env b).2.takeWhile (fun ev => ev != BEv.stage2Entry)) = []
      ∧ (BEv.stage2Entry ∈ (runV2Batch env b).2 →
          ∀ it1 ∈ (stage1Loop env b.tasksDemucs b.items 0).1,
            it1.state ≠ IState.running ∧ (it1.state = IState.queued → it1.srtReady = true))
      ∧ (env.cancelFrom = none →
          (∀ n, (env.s2 n).zipDemucsOk = true ∧ (env.s2 n).zipResultOk = true) →
          demucsVisitedIdxs (runV2Batch env b).2
            = queuedIdxs (stage1Loop env b.tasksDemucs b.items 0).1
          ∧ asrConvertIdxs (runV2Batch env b).2 = b.items.map BItem.idx)
      ∧ (∀ (items2 : List BItem) (k : Nat),
          (stage2Loop env b.tasksAsr b.outDir items2 k).2.2.1 = true →
          ∃ p, p ≤ items2.length
            ∧ (stage2Loop env b.tasksAsr b.outDir items2 k).1
                = (stage2Loop env b.tasksAsr b.outDir (items2.take p) k).1
                  ++ (items2.drop p).map cancelItem
            ∧ demucsVisitedIdxs (stage2Loop env b.tasksAsr b.outDir items2 k).2.1
                = demucsVisitedIdxs (stage2Loop env b.tasksAsr b.outDir (items2.take p) k).2.1) := by
  intro env b hta htd hinit hpair
  -- the cancel-branch clause, independent of this particular run
  have hD : ∀ (items2 : List BItem) (k : Nat),
      (stage2Loop env b.tasksAsr b.outDir items2 k).2.2.1 = true →
      ∃ p, p ≤ items2.length
        ∧ (stage2Loop env b.tasksAsr b.outDir items2 k).1
            = (stage2Loop env b.tasksAsr b.outDir (items2.take p) k).1
              ++ (items2.drop p).map cancelItem
        ∧ demucsVisitedIdxs (stage2Loop env b.tasksAsr b.outDir items2 k).2.1
            = demucsVisitedIdxs (stage2Loop env b.tasksAsr b.outDir (items2.take p) k).2.1 := by
    rw [hta]
    intro items2 k hcanc
    rcases stage2Loop_canceled_split env true b.outDir items2 k hcanc with ⟨p, hple, hi, ht⟩
    refine ⟨p, hple, hi, ?_⟩
    rw [ht]
    simp [demucsVisitedIdxs, List.filterMap_append]
  -- the cancel/abort-free clause, exactly as before
  have hC : env.cancelFrom = none →
      (∀ n, (env.s2 n).zipDemucsOk = true ∧ (env.s2 n).zipResultOk = true) →
      demucsVisitedIdxs (runV2Batch env b).2
        = queuedIdxs (stage1Loop env b.tasksDemucs b.items 0).1
      ∧ asrConvertIdxs (runV2Batch env b).2 = b.items.map BItem.idx := by
    intro hcan hz
    obtain ⟨hitemsN, htrN⟩ := runV2Batch_noCancel env b hcan hz
    have hloop1 := stage1Loop_noCancel env b.tasksDemucs hcan b.items 0
    rw [htd] at hloop1
    have hconv := filterMapIdx_flatten
      (fun ev => match ev with | BEv.enterPhase i IPhase.asrConvert => some i | _ => none)
      id (s1Evs env true) (fun it => it.state == IState.queued) b.items
      (fun it _ => asrConvertIdxs_s1Evs env true it)
    have hfilself : b.items.filter (fun it => it.state == IState.queued) = b.items := by
      rw [List.filter_eq_self]
      intro it hm
      simp [hinit it hm]
    have hconv2 := filterMapIdx_flatten_nil
      (fun ev => match ev with | BEv.enterPhase i IPhase.asrConvert => some i | _ => none)
      (s2Evs env true b.outDir) (b.items.map (s1Item env true))
      (fun it1 _ => asrConvertIdxs_s2Evs env true b.outDir it1)
    have hdem1 := filterMapIdx_flatten_nil
      (fun ev => match ev with | BEv.enterPhase i IPhase.demucsPh => some i | _ => none)
      (s1Evs env true) b.items
      (fun it _ => demucsIdxs_s1Evs env true it)
    have hdem2 := filterMapIdx_flatten
      (fun ev => match ev with | BEv.enterPhase i IPhase.demucsPh => some i | _ => none)
      id (s2Evs env true b.outDir) (fun it => it.state == IState.queued)
      (b.items.map (s1Item env true))
      (fun it1 _ => demucsIdxs_s2Evs env true b.outDir it1)
    have htrace : (runV2Batch env b).2
        = (b.items.map (s1Evs env true)).flatten
          ++ (BEv.stage2Entry ::
               ((b.items.map (s1Item env true)).map (s2Evs env true b.outDir)).flatten
             ++ [BEv.batchFinal (classifyBatch (batchItemsFinal env b))]) := by
      rw [htrN]
      unfold batchTraceNoCancel
      rw [hta, htd]
      simp [batchItemsFinal, hta, htd]
    constructor
    · rw [htrace, htd, hloop1]
      show List.filterMap _ _ = _
      rw [List.filterMap_append, hdem1, List.nil_append]
      simp only [List.filterMap_cons, List.filterMap_append, hdem2]
      simp [queuedIdxs]
    · rw [htrace]
      show List.filterMap _ _ = _
      rw [List.filterMap_append, hconv]
      simp only [List.filterMap_cons, List.filterMap_append, hconv2]
      simp [hfilself]
  -- destructure this run
  rcases h1 : stage1Loop env true b.items 0 with ⟨its1, evs1, canc1⟩
  have hrun := runV2Batch_run env b hta htd its1 evs1 canc1 h1
  have hd1 : demucsVisitedIdxs evs1 = [] := by
    have h := stage1Loop_demucsIdxs env true b.items 0
    rw [h1] at h
    exact h
  have hs2e1 : BEv.stage2Entry ∉ evs1 := by
    have h := stage1Loop_no_stage2Entry env true b.items 0
    rw [h1] at h
    exact h
  have ha1 : List.Sublist (asrConvertIdxs evs1) (b.items.map BItem.idx) := by
    have h := stage1Loop_asrIdxs_sublist env true b.items 0
    rw [h1] at h
    exact h
  have hne1 : ∀ x ∈ evs1, x ≠ BEv.stage2Entry := by
    intro x hx he
    exact hs2e1 (he ▸ hx)
  cases canc1 with
  | true =>
    have htr := hrun.1 rfl
    refine ⟨?_, ?_, ?_, ?_, hC, hD⟩
    · rw [htr]
      exact List.Pairwise.sublist ha1 hpair
    · rw [htr, hd1]
      exact List.Pairwise.nil
    · rw [htr, takeWhile_ne_all BEv.stage2Entry evs1 hne1, hd1]
    · rw [htr]
      intro hmem
      exact absurd hmem hs2e1
  | false =>
    rcases h2 : stage2Loop env true b.outDir its1 b.items.length with ⟨its2, evs2, canc2, ab2⟩
    have htr := hrun.2 rfl its2 evs2 canc2 ab2 h2
    have hits1 : its1 = b.items.map (s1Item env true) := by
      have h := stage1Loop_of_not_canceled env true b.items 0 (by rw [h1])
      rw [h1] at h
      exact congrArg (fun t => t.1) h
    have ha2 : asrConvertIdxs evs2 = [] := by
      have h := stage2Loop_asrIdxs env true b.outDir its1 b.items.length
      rw [h2] at h
      exact h
    have hd2sub : List.Sublist (demucsVisitedIdxs evs2) (its1.map BItem.idx) := by
      have h := stage2Loop_demucsIdxs_sublist env true b.outDir its1 b.items.length
      rw [h2] at h
      exact h
    have hidx1 : its1.map BItem.idx = b.items.map BItem.idx := by
      rw [hits1, List.map_map]
      exact List.map_congr_left (fun it _ => s1Item_idx env true it)
    have htailA : asrConvertIdxs
        (if canc2 = true then []
         else if ab2 = true then [BEv.batchFinal BState.failed]
         else [BEv.batchFinal (classifyBatch its2)]) = [] := by
      cases canc2 <;> cases ab2 <;> rfl
    have htailD : demucsVisitedIdxs
        (if canc2 = true then []
         else if ab2 = true then [BEv.batchFinal BState.failed]
         else [BEv.batchFinal (classifyBatch its2)]) = [] := by
      cases canc2 <;> cases ab2 <;> rfl
    have hcompA : asrConvertIdxs (runV2Batch env b).2 = asrConvertIdxs evs1 := by
      rw [htr]
      simp only [asrConvertIdxs, List.filterMap_append, List.filterMap_cons] at ha2 htailA ⊢
      simp [ha2, htailA]
    have hcompD : demucsVisitedIdxs (runV2Batch env b).2 = demucsVisitedIdxs evs2 := by
      rw [htr]
      simp only [demucsVisitedIdxs, List.filterMap_append, List.filterMap_cons]
        at hd1 htailD ⊢
      simp [hd1, htailD]
    refine ⟨?_, ?_, ?_, ?_, hC, hD⟩
    · rw [hcompA]
      exact List.Pairwise.sublist ha1 hpair
    · rw [hcompD]
      refine List.Pairwise.sublist ?_ hpair
      rw [← hidx1]
      exact hd2sub
    · have hshape : (runV2Batch env b).2
          = evs1 ++ BEv.stage2Entry ::
              (evs2 ++ (if canc2 = true then []
                 else if ab2 = true then [BEv.batchFinal BState.failed]
                 else [BEv.batchFinal (classifyBatch its2)])) := by
        rw [htr]
        simp [List.append_assoc]
      rw [hshape, takeWhile_until BEv.stage2Entry evs1 _ hne1, hd1]
    · intro _
      rw [htd, h1]
      intro it1 hm1
      rw [hits1] at hm1
      rcases List.mem_map.mp hm1 with ⟨it0, hm0, heq⟩
      subst heq
      exact s1Item_no_running_srt env true it0 (hinit it0 hm0)

/-- C8 amended, witness: a two-item asr+demucs batch without cancellation
processes both stages in index order and visits exactly the still-queued
items of stage-2 entry. -/
theorem stage_first_ordering_witness :
    asrConvertIdxs (runV2Batch envAllOk twoItemBatch).2 = twoItemBatch.items.map BItem.idx
    ∧ demucsVisitedIdxs (runV2Batch envAllOk twoItemBatch).2
        = queuedIdxs (stage1Loop envAllOk twoItemBatch.tasksDemucs twoItemBatch.items 0).1 := by
  have h := stage_first_ordering envAllOk twoItemBatch rfl rfl (by decide) (by decide)
  have hc := h.2.2.2.2.1 rfl (fun n => ⟨rfl, rfl⟩)
  exact ⟨hc.2, hc.1⟩

/-- C7: a freshly created job or batch record is non-terminal with neither
`finishedAt` nor `expiresAt`, and every state transition the engines perform
(start, mid-run phase/item updates, `finalizeSuccess`/`finalizeFailure`,
`markBatchDone`, the queue-catch failure handler, and the restart patches of
the startup sweep) preserves the invariant that a terminal record has both
timestamps and a non-terminal record has neither. -/
theorem terminal_iff_timestamps :
    (∀ (ty : V2JobType) (cl : Bool) (odir : String), jobTsInv (initJob ty cl odir))
    ∧ (∀ (ta td : Bool) (odir : String) (its : List BItem), batchTsInv (initBatch ta td odir its))
    ∧ (∀ r r2, recTsInv r → EngineStep r r2 → recTsInv r2) := by
  refine ⟨?_, ?_, ?_⟩
  · intro ty cl odir
    exact ⟨rfl, rfl⟩
  · intro ta td odir its
    exact ⟨rfl, rfl⟩
  · intro r r2 hinv hstep
    cases hstep with
    | jobStart j h =>
      have ht : terminalJ j = false := by simp [terminalJ, h]
      simp only [recTsInv, jobTsInv, ht, if_false, Bool.false_eq_true] at hinv
      simp [recTsInv, jobTsInv, terminalJ, startJ, hinv]
    | jobPhase j ph h =>
      have ht : terminalJ j = false := by simp [terminalJ, h]
      simp only [recTsInv, jobTsInv, ht, if_false, Bool.false_eq_true] at hinv
      simp [recTsInv, jobTsInv, terminalJ, h, hinv]
    | jobFinalizeSuccess j =>
      simp [recTsInv, jobTsInv, terminalJ, finalizeSuccessJ]
    | jobFinalizeFailure j e =>
      simp [recTsInv, jobTsInv, terminalJ, finalizeFailureJ]
    | jobRestart j h =>
      simp [recTsInv, jobTsInv, terminalJ, restartPatchJ]
    | batchStart b h =>
      have ht : terminalB b = false := by simp [terminalB, h]
      simp only [recTsInv, batchTsInv, ht, if_false, Bool.false_eq_true] at hinv
      simp [recTsInv, batchTsInv, terminalB, startB, hinv]
    | batchPhase b ph h =>
      have ht : terminalB b = false := by simp [terminalB, h]
      simp only [recTsInv, batchTsInv, ht, if_false, Bool.false_eq_true] at hinv
      simp [recTsInv, batchTsInv, terminalB, h, hinv]
    | batchItems b its h =>
      have ht : terminalB b = false := by simp [terminalB, h]
      simp only [recTsInv, batchTsInv, ht, if_false, Bool.false_eq_true] at hinv
      simp [recTsInv, batchTsInv, terminalB, h, hinv]
    | batchDone b st ph hst =>
      rcases hst with rfl | rfl | rfl <;>
        simp [recTsInv, batchTsInv, terminalB, markBatchDone]
    | batchRestart b h =>
      simp [recTsInv, batchTsInv, terminalB, restartPatchB]

/-- C7 witness: the invariant evaluated across a concrete
`finalizeSuccess` transition of a running job. -/
theorem terminal_iff_timestamps_witness :
    recTsInv (RecSt.jobRec (finalizeSuccessJ runningJobEx)) :=
  terminal_iff_timestamps.2.2 (RecSt.jobRec runningJobEx)
    (RecSt.jobRec (finalizeSuccessJ runningJobEx))
    ⟨rfl, rfl⟩
    (EngineStep.jobFinalizeSuccess runningJobEx)

end FunAsr
